import Mathlib

/-!
# A verification model of `superduperreload`

This file gives a shallow embedding, in Lean 4, of the core of the
`superduperreload` live code-patching engine
(`core/superduperreload/superduperreload.py`), and proves properties of it.

Python dictionaries (module namespaces, class `__dict__`s, the
`modules_mtimes`/`failed` tables) are modelled as association lists with a
first-match lookup; `setA` models `d[k] = v` (replacing in place the binding
for a present key, appending a fresh binding otherwise, as insertion-ordered
Python dicts do), `delA` models `del d[k]` / `d.pop(k, None)`, and `updA`
models `d.update(other)`.
-/

namespace SDR

/-- Dictionary lookup `d.get(k)` on an association list. -/
def lookupA {κ α : Type} [DecidableEq κ] : List (κ × α) → κ → Option α
  | [], _ => none
  | (k', v) :: rest, k => if k' = k then some v else lookupA rest k

/-- Dictionary store `d[k] = v`: replace the first binding in place if the key
is present, otherwise append a fresh binding (insertion-order semantics). -/
def setA {κ α : Type} [DecidableEq κ] : List (κ × α) → κ → α → List (κ × α)
  | [], k, v => [(k, v)]
  | (k', v') :: rest, k, v =>
    if k' = k then (k, v) :: rest else (k', v') :: setA rest k v

/-- Dictionary delete `del d[k]` (also models `d.pop(k, None)`). -/
def delA {κ α : Type} [DecidableEq κ] (l : List (κ × α)) (k : κ) :
    List (κ × α) :=
  l.filter (fun p => decide (p.1 ≠ k))

/-- Dictionary merge `d.update(other)`: later bindings win. -/
def updA {κ α : Type} [DecidableEq κ] (l l' : List (κ × α)) : List (κ × α) :=
  l'.foldl (fun acc p => setA acc p.1 p.2) l

theorem lookupA_setA_self {κ α : Type} [DecidableEq κ]
    (l : List (κ × α)) (k : κ) (v : α) : lookupA (setA l k v) k = some v := by
  induction l with
  | nil => simp [setA, lookupA]
  | cons p rest ih =>
    by_cases h : p.1 = k
    · simp [setA, h, lookupA]
    · simp [setA, h, lookupA, ih]

theorem lookupA_setA_ne {κ α : Type} [DecidableEq κ]
    (l : List (κ × α)) (k k' : κ) (v : α) (h : k ≠ k') :
    lookupA (setA l k' v) k = lookupA l k := by
  induction l with
  | nil =>
    simp only [setA, lookupA]
    rw [if_neg (Ne.symm h)]
  | cons p rest ih =>
    obtain ⟨pk, pv⟩ := p
    by_cases hp : pk = k'
    · simp only [setA, if_pos hp, lookupA]
      rw [if_neg (Ne.symm h), if_neg (fun he : pk = k => absurd (he.symm.trans hp) h)]
    · simp only [setA, if_neg hp, lookupA]
      by_cases hk : pk = k
      · rw [if_pos hk, if_pos hk]
      · rw [if_neg hk, if_neg hk]
        exact ih

theorem lookupA_delA_ne {κ α : Type} [DecidableEq κ]
    (l : List (κ × α)) (k k' : κ) (h : k ≠ k') :
    lookupA (delA l k') k = lookupA l k := by
  induction l with
  | nil => rfl
  | cons p rest ih =>
    obtain ⟨pk, pv⟩ := p
    simp only [delA, List.filter_cons] at ih ⊢
    by_cases hp : pk = k'
    · rw [if_neg (by simp [hp])]
      have hr : lookupA ((pk, pv) :: rest) k = lookupA rest k := by
        simp only [lookupA]
        rw [if_neg (fun he : pk = k => absurd (he.symm.trans hp) h)]
      rw [hr]
      exact ih
    · rw [if_pos (by simp [hp])]
      simp only [lookupA]
      by_cases hk : pk = k
      · rw [if_pos hk, if_pos hk]
      · rw [if_neg hk, if_neg hk]
        exact ih

theorem lookupA_delA_self {κ α : Type} [DecidableEq κ]
    (l : List (κ × α)) (k : κ) : lookupA (delA l k) k = none := by
  induction l with
  | nil => rfl
  | cons p rest ih =>
    obtain ⟨pk, pv⟩ := p
    simp only [delA, List.filter_cons] at ih ⊢
    by_cases hp : pk = k
    · rw [if_neg (by simp [hp])]
      exact ih
    · rw [if_pos (by simp [hp])]
      simp only [lookupA, if_neg hp]
      exact ih

/-- Keys are unchanged by an in-place replacement of a present key. -/
theorem keys_setA_of_mem {κ α : Type} [DecidableEq κ]
    (l : List (κ × α)) (k : κ) (v : α) (h : (lookupA l k).isSome) :
    (setA l k v).map Prod.fst = l.map Prod.fst := by
  induction l with
  | nil => simp [lookupA] at h
  | cons p rest ih =>
    by_cases hp : p.1 = k
    · simp [setA, hp]
    · simp only [lookupA, if_neg hp] at h
      simp [setA, hp, ih h]

theorem lookupA_updA_not_mem {κ α : Type} [DecidableEq κ]
    (l l' : List (κ × α)) (k : κ) (h : ∀ p ∈ l', p.1 ≠ k) :
    lookupA (updA l l') k = lookupA l k := by
  induction l' generalizing l with
  | nil => simp [updA]
  | cons p rest ih =>
    simp only [updA, List.foldl_cons] at ih ⊢
    rw [ih (setA l p.1 p.2) (fun q hq => h q (List.mem_cons_of_mem _ hq))]
    exact lookupA_setA_ne l k p.1 p.2 (fun he => h p (List.mem_cons_self _ _) (he ▸ rfl))

/-!
## The composite-type patch rule (`update_class`)

`update_class(old, new)` walks the snapshot of `old.__dict__`'s keys; for each
key it reads `old_obj = getattr(old, key)` and
`new_obj = getattr(new, key, _NOT_FOUND)`, tries `(old_obj == new_obj) is
True` guarded by `except ValueError`, and then either deletes an obsolete
callable-like attribute, copies the old value onto `new` (data precedence), or
copies the new value onto `old` (callable precedence), finally invoking the
generic dispatcher `update_generic(old_obj, new_obj)`; a second loop copies
keys present only on `new` onto `old`.

In the model an attribute value is an `Attr`: its Python identity (`oid`) and
whether it is an instance of `_ClassCallableTypes` (`callableLike`).  A class
is its `__dict__`, an association list `String × Attr`.  `getattr` is
modelled as dictionary lookup (no inheritance chain), `_NOT_FOUND` as `none`.
The dynamic `==` comparison is a parameter `cmp : Attr → Option Attr →
CmpResult` (the second argument is `none` when the right operand is the
`_NOT_FOUND` sentinel); its result says whether the comparison returned
`True`, returned anything else, raised `ValueError`, or raised some other
exception.  Invocations of `update_generic` are recorded in `calls` rather
than interpreted (the dispatcher is modelled separately); `setattr`/`delattr`
on the model classes always succeed (writable slots), and the
`update_instances` heap rescan and the leading `old is new` identity guard
are outside this model.
-/

/-- A class attribute value: Python identity plus whether it is an instance
of `_ClassCallableTypes`. -/
structure Attr where
  oid : Nat
  callableLike : Bool
deriving DecidableEq, Repr

/-- Outcome of evaluating `(old_obj == new_obj) is True` in Python. -/
inductive CmpResult
  /-- the comparison returned `True` -/
  | eqTrue
  /-- the comparison returned something other than `True` -/
  | neq
  /-- the comparison raised `ValueError` (caught by the source) -/
  | raisesValueError
  /-- the comparison raised an exception other than `ValueError` -/
  | raisesOther
deriving DecidableEq, Repr

/-- State threaded through `update_class`: the two class dictionaries plus
the recorded `update_generic(old_obj, new_obj)` invocations. -/
structure UCState where
  oldAttrs : List (String × Attr)
  newAttrs : List (String × Attr)
  calls : List (Attr × Option Attr)
deriving DecidableEq, Repr

/-- The `if`/`elif`/`else` chain of the first `update_class` loop, reached
when the old and new values at key `k` compared "not equal": delete an
obsolete callable-like attribute, or copy the preferred value onto the losing
class; finally record the `update_generic(old_obj, new_obj)` invocation. -/
def notEqualStep (st : UCState) (k : String) (old_v : Attr)
    (new_v : Option Attr) : UCState :=
  match new_v with
  | none =>
    if old_v.callableLike then
      -- obsolete attribute: `delattr(old, key)`
      { st with oldAttrs := delA st.oldAttrs k,
                calls := st.calls ++ [(old_v, none)] }
    else
      -- `not isinstance(old_obj, _ClassCallableTypes)` holds:
      -- prefer the old version for non-functions
      { st with newAttrs := setA st.newAttrs k old_v,
                calls := st.calls ++ [(old_v, none)] }
  | some nv =>
    if old_v.callableLike && nv.callableLike then
      -- prefer the new version for functions: `setattr(old, key, new_obj)`
      { st with oldAttrs := setA st.oldAttrs k nv,
                calls := st.calls ++ [(old_v, some nv)] }
    else
      -- prefer the old version for non-functions: `setattr(new, key, old_obj)`
      { st with newAttrs := setA st.newAttrs k old_v,
                calls := st.calls ++ [(old_v, some nv)] }

/-- One iteration of the first `update_class` loop, at key `k`.
`Except.error ()` models an uncaught exception propagating out of the loop
(the source catches only `ValueError` around the equality comparison, so a
comparison returning non-`True` and one raising `ValueError` both fall
through to `notEqualStep`, while any other exception propagates). -/
def processKey (cmp : Attr → Option Attr → CmpResult) (st : UCState)
    (k : String) : Except Unit UCState :=
  match lookupA st.oldAttrs k with
  | none => Except.ok st -- unreachable: keys are snapshotted from `old.__dict__`
  | some old_v =>
    match cmp old_v (lookupA st.newAttrs k) with
    | CmpResult.eqTrue => Except.ok st          -- `continue`
    | CmpResult.raisesOther => Except.error ()  -- not caught: propagates
    | CmpResult.neq =>
      Except.ok (notEqualStep st k old_v (lookupA st.newAttrs k))
    | CmpResult.raisesValueError =>
      Except.ok (notEqualStep st k old_v (lookupA st.newAttrs k))

/-- The first `update_class` loop over the snapshot of `old.__dict__`'s keys. -/
def ucLoop (cmp : Attr → Option Attr → CmpResult) :
    List String → UCState → Except Unit UCState
  | [], st => Except.ok st
  | k :: rest, st =>
    match processKey cmp st k with
    | Except.error e => Except.error e
    | Except.ok st' => ucLoop cmp rest st'

/-- The second `update_class` loop: copy keys present on `new` but absent
from `old` onto `old`. -/
def copyNewKeys (st : UCState) : UCState :=
  (st.newAttrs.map Prod.fst).foldl
    (fun acc k =>
      if (lookupA acc.oldAttrs k).isSome then acc
      else
        match lookupA acc.newAttrs k with
        | some v => { acc with oldAttrs := setA acc.oldAttrs k v }
        | none => acc)
    st

/-- Model of `update_class(old, new)` on the two class dictionaries. -/
def update_class (cmp : Attr → Option Attr → CmpResult)
    (old new : List (String × Attr)) : Except Unit UCState :=
  match ucLoop cmp (old.map Prod.fst) ⟨old, new, []⟩ with
  | Except.error e => Except.error e
  | Except.ok st => Except.ok (copyNewKeys st)

theorem mem_keys_of_lookupA {κ α : Type} [DecidableEq κ]
    {l : List (κ × α)} {k : κ} {v : α} (h : lookupA l k = some v) :
    k ∈ l.map Prod.fst := by
  induction l with
  | nil => simp [lookupA] at h
  | cons p rest ih =>
    by_cases hp : p.1 = k
    · simp [hp]
    · simp only [lookupA, if_neg hp] at h
      simp [ih h]

/-- The not-equal branch at key `k'` leaves both class dictionaries unchanged
at any other key `k` and only appends to the call log. -/
theorem notEqualStep_ne {st : UCState} {k k' : String} (old_v : Attr)
    (new_v : Option Attr) (hne : k ≠ k') :
    lookupA (notEqualStep st k' old_v new_v).oldAttrs k
        = lookupA st.oldAttrs k ∧
    lookupA (notEqualStep st k' old_v new_v).newAttrs k
        = lookupA st.newAttrs k ∧
    st.calls <+: (notEqualStep st k' old_v new_v).calls := by
  rcases new_v with _ | nv
  · by_cases hc : old_v.callableLike = true
    · have h1 : notEqualStep st k' old_v none =
          { st with oldAttrs := delA st.oldAttrs k',
                    calls := st.calls ++ [(old_v, none)] } := by
        simp only [notEqualStep, if_pos hc]
      rw [h1]
      exact ⟨lookupA_delA_ne _ _ _ hne, rfl, ⟨_, rfl⟩⟩
    · have h1 : notEqualStep st k' old_v none =
          { st with newAttrs := setA st.newAttrs k' old_v,
                    calls := st.calls ++ [(old_v, none)] } := by
        simp only [notEqualStep, if_neg hc]
      rw [h1]
      exact ⟨rfl, lookupA_setA_ne _ _ _ _ hne, ⟨_, rfl⟩⟩
  · by_cases hc : (old_v.callableLike && nv.callableLike) = true
    · have h1 : notEqualStep st k' old_v (some nv) =
          { st with oldAttrs := setA st.oldAttrs k' nv,
                    calls := st.calls ++ [(old_v, some nv)] } := by
        simp only [notEqualStep, if_pos hc]
      rw [h1]
      exact ⟨lookupA_setA_ne _ _ _ _ hne, rfl, ⟨_, rfl⟩⟩
    · have h1 : notEqualStep st k' old_v (some nv) =
          { st with newAttrs := setA st.newAttrs k' old_v,
                    calls := st.calls ++ [(old_v, some nv)] } := by
        simp only [notEqualStep, if_neg hc]
      rw [h1]
      exact ⟨rfl, lookupA_setA_ne _ _ _ _ hne, ⟨_, rfl⟩⟩

/-- A `processKey` step at a key `k'` different from `k` leaves both class
dictionaries unchanged at `k` and only appends to the call log. -/
theorem processKey_ne {cmp : Attr → Option Attr → CmpResult} {st st' : UCState}
    {k k' : String} (hne : k ≠ k')
    (h : processKey cmp st k' = Except.ok st') :
    lookupA st'.oldAttrs k = lookupA st.oldAttrs k ∧
    lookupA st'.newAttrs k = lookupA st.newAttrs k ∧
    st.calls <+: st'.calls := by
  unfold processKey at h
  split at h
  · simp only [Except.ok.injEq] at h
    subst h
    exact ⟨rfl, rfl, List.prefix_refl _⟩
  · rename_i ov hov
    split at h
    · simp only [Except.ok.injEq] at h
      subst h
      exact ⟨rfl, rfl, List.prefix_refl _⟩
    · exact Except.noConfusion h
    · simp only [Except.ok.injEq] at h
      subst h
      exact notEqualStep_ne _ _ hne
    · simp only [Except.ok.injEq] at h
      subst h
      exact notEqualStep_ne _ _ hne

/-- Running the loop over keys not containing `k` preserves both dictionaries
at `k` and only appends to the call log. -/
theorem ucLoop_not_mem {cmp : Attr → Option Attr → CmpResult} {keys : List String}
    {st st' : UCState} {k : String} (hk : k ∉ keys)
    (h : ucLoop cmp keys st = Except.ok st') :
    lookupA st'.oldAttrs k = lookupA st.oldAttrs k ∧
    lookupA st'.newAttrs k = lookupA st.newAttrs k ∧
    st.calls <+: st'.calls := by
  induction keys generalizing st with
  | nil =>
    simp only [ucLoop, Except.ok.injEq] at h
    subst h
    exact ⟨rfl, rfl, List.prefix_refl _⟩
  | cons k' rest ih =>
    simp only [ucLoop] at h
    rcases hp : processKey cmp st k' with e | st1 <;> rw [hp] at h
    · exact absurd h (by simp)
    · have hne : k ≠ k' := fun he => hk (he ▸ List.mem_cons_self _ _)
      obtain ⟨h1, h2, h3⟩ := processKey_ne hne hp
      obtain ⟨h1', h2', h3'⟩ := ih (fun hm => hk (List.mem_cons_of_mem _ hm)) h
      exact ⟨h1'.trans h1, h2'.trans h2, h3.trans h3'⟩

/-- Splitting the loop at a designated key. -/
theorem ucLoop_append {cmp : Attr → Option Attr → CmpResult}
    {l1 : List String} {k : String} {l2 : List String} {st res : UCState}
    (h : ucLoop cmp (l1 ++ k :: l2) st = Except.ok res) :
    ∃ st1 st2, ucLoop cmp l1 st = Except.ok st1 ∧
      processKey cmp st1 k = Except.ok st2 ∧
      ucLoop cmp l2 st2 = Except.ok res := by
  induction l1 generalizing st with
  | nil =>
    simp only [List.nil_append, ucLoop] at h
    rcases hp : processKey cmp st k with e | st2 <;> rw [hp] at h
    · exact absurd h (by simp)
    · exact ⟨st, st2, rfl, hp, h⟩
  | cons k' rest ih =>
    simp only [List.cons_append, ucLoop] at h
    rcases hp : processKey cmp st k' with e | st1 <;> rw [hp] at h
    · exact absurd h (by simp)
    · obtain ⟨s1, s2, hh1, hh2, hh3⟩ := ih h
      refine ⟨s1, s2, ?_, hh2, hh3⟩
      simp only [ucLoop, hp]
      exact hh1

/-- The second loop does not change the new class's dictionary or the call
log, and preserves every key already present on the old class. -/
theorem copyNewKeys_facts (st : UCState) :
    (copyNewKeys st).newAttrs = st.newAttrs ∧
    (copyNewKeys st).calls = st.calls ∧
    ∀ k v, lookupA st.oldAttrs k = some v →
      lookupA (copyNewKeys st).oldAttrs k = some v := by
  unfold copyNewKeys
  generalize st.newAttrs.map Prod.fst = ks
  induction ks generalizing st with
  | nil => exact ⟨rfl, rfl, fun _ _ h => h⟩
  | cons k' rest ih =>
    simp only [List.foldl_cons]
    by_cases hp : (lookupA st.oldAttrs k').isSome
    · rw [if_pos hp]
      exact ih st
    · rw [if_neg hp]
      rcases hnv : lookupA st.newAttrs k' with _ | v
      · exact ih st
      · obtain ⟨ih1, ih2, ih3⟩ :=
          ih { st with oldAttrs := setA st.oldAttrs k' v }
        refine ⟨ih1, ih2, fun k w hw => ih3 k w ?_⟩
        have hne : k ≠ k' := by
          intro he
          subst he
          rw [hw] at hp
          exact hp (by simp)
        simpa [lookupA_setA_ne _ _ _ _ hne] using hw

/-- Splitting membership in a `Nodup` list. -/
theorem nodup_split {α : Type} [DecidableEq α] {l : List α} {a : α}
    (hm : a ∈ l) (hd : l.Nodup) :
    ∃ l1 l2, l = l1 ++ a :: l2 ∧ a ∉ l1 ∧ a ∉ l2 := by
  obtain ⟨l1, l2, rfl⟩ := List.append_of_mem hm
  rw [List.nodup_append] at hd
  obtain ⟨_, hd2, hdisj⟩ := hd
  refine ⟨l1, l2, rfl, fun h1 => hdisj h1 (List.mem_cons_self _ _), ?_⟩
  exact (List.nodup_cons.mp hd2).1

/-- Core behavior of `update_class` at an attribute present on both classes
whose comparison does not return `True` and does not raise an uncaught
exception: the precedence rule writes the winning value into the losing
class's slot and the generic dispatcher is invoked on the pair. -/
theorem update_class_neq_spec (cmp : Attr → Option Attr → CmpResult)
    (old new : List (String × Attr)) (k : String) (ov nv : Attr)
    (res : UCState)
    (hnd : (old.map Prod.fst).Nodup)
    (hov : lookupA old k = some ov)
    (hnv : lookupA new k = some nv)
    (hc1 : cmp ov (some nv) ≠ CmpResult.eqTrue)
    (hc2 : cmp ov (some nv) ≠ CmpResult.raisesOther)
    (hok : update_class cmp old new = Except.ok res) :
    (ov, some nv) ∈ res.calls ∧
    (if ov.callableLike && nv.callableLike
     then lookupA res.oldAttrs k = some nv
     else lookupA res.newAttrs k = some ov) := by
  obtain ⟨l1, l2, hsplit, hk1, hk2⟩ := nodup_split (mem_keys_of_lookupA hov) hnd
  unfold update_class at hok
  rcases hloop : ucLoop cmp (old.map Prod.fst) ⟨old, new, []⟩ with e | stF <;>
    rw [hloop] at hok
  · exact absurd hok (by simp)
  · simp only [Except.ok.injEq] at hok
    subst hok
    rw [hsplit] at hloop
    obtain ⟨st1, st2, hu1, hpk, hu2⟩ := ucLoop_append hloop
    obtain ⟨ho1, hn1, _⟩ := ucLoop_not_mem hk1 hu1
    -- at st1, the two dictionaries still hold `ov` and `nv` at `k`
    have ho1' : lookupA st1.oldAttrs k = some ov := by rw [ho1]; exact hov
    have hn1' : lookupA st1.newAttrs k = some nv := by rw [hn1]; exact hnv
    -- evaluate the step at `k`
    unfold processKey at hpk
    have hstep : st2 = notEqualStep st1 k ov (some nv) := by
      split at hpk
      · rename_i hnone
        rw [ho1'] at hnone
        exact Option.noConfusion hnone
      · rename_i ov' hov'
        rw [ho1'] at hov'
        obtain rfl : ov = ov' := Option.some.inj hov'
        split at hpk
        · rename_i hc
          rw [hn1'] at hc
          exact absurd hc hc1
        · rename_i hc
          rw [hn1'] at hc
          exact absurd hc hc2
        · rw [hn1'] at hpk
          simp only [Except.ok.injEq] at hpk
          exact hpk.symm
        · rw [hn1'] at hpk
          simp only [Except.ok.injEq] at hpk
          exact hpk.symm
    obtain ⟨hoF, hnF, hcF⟩ := ucLoop_not_mem hk2 hu2
    obtain ⟨hcp1, hcp2, hcp3⟩ := copyNewKeys_facts stF
    by_cases hcall : (ov.callableLike && nv.callableLike) = true
    · simp only [notEqualStep, if_pos hcall] at hstep
      rw [if_pos hcall]
      constructor
      · rw [hcp2]
        rcases hcF with ⟨tail, htail⟩
        rw [← htail, hstep]
        simp
      · refine hcp3 k nv ?_
        rw [hoF, hstep]
        exact lookupA_setA_self _ _ _
    · simp only [notEqualStep, if_neg hcall] at hstep
      rw [if_neg hcall]
      constructor
      · rw [hcp2]
        rcases hcF with ⟨tail, htail⟩
        rw [← htail, hstep]
        simp
      · rw [hcp1, hnF, hstep]
        exact lookupA_setA_self _ _ _

/-- A comparison whose `==` raises an exception that is not `ValueError`
(e.g. a `TypeError` from a user-defined `__eq__`). -/
def cmpRaisesTypeError : Attr → Option Attr → CmpResult :=
  fun _ _ => CmpResult.raisesOther

/-- C3, counterexample: the claim says an attribute-equality check that
raises ANY exception is treated as "not equal" and that no such exception
propagates out of the class patch.  The source catches only `ValueError`, so
a comparison raising any other exception propagates out of `update_class`:
on a one-attribute class pair whose comparison raises a non-`ValueError`
exception, `update_class` aborts with that exception. -/
theorem comparison_exception_escapes_class_patch :
    update_class cmpRaisesTypeError
      [("a", Attr.mk 1 true)] [("a", Attr.mk 2 true)] = Except.error () := by
  rfl

/-- C3 (amended): during the composite-type patch rule, for an attribute
present on both classes, a comparison that raises `ValueError` is treated as
"not equal": the rule proceeds to the precedence step (the losing class's
slot is overwritten with the winning value and the generic dispatcher is
invoked on the pair), and the `ValueError` does not propagate.  Any
exception other than `ValueError` raised by the comparison propagates out of
the class patch (see the counterexample). -/
theorem comparison_valueerror_treated_as_not_equal
    (cmp : Attr → Option Attr → CmpResult)
    (old new : List (String × Attr)) (k : String) (ov nv : Attr)
    (res : UCState)
    (hnd : (old.map Prod.fst).Nodup)
    (hov : lookupA old k = some ov)
    (hnv : lookupA new k = some nv)
    (hraise : cmp ov (some nv) = CmpResult.raisesValueError)
    (hok : update_class cmp old new = Except.ok res) :
    (ov, some nv) ∈ res.calls ∧
    (if ov.callableLike && nv.callableLike
     then lookupA res.oldAttrs k = some nv
     else lookupA res.newAttrs k = some ov) :=
  update_class_neq_spec cmp old new k ov nv res hnd hov hnv
    (by simp [hraise]) (by simp [hraise]) hok

/-- A comparison that raises `ValueError` on every pair (the numpy-array
scenario from the source's comment). -/
def cmpValueError : Attr → Option Attr → CmpResult :=
  fun _ _ => CmpResult.raisesValueError

/-- Result of `update_class` on the concrete C3 witness input. -/
def res3 : UCState :=
  match update_class cmpValueError
      [("a", Attr.mk 1 false)] [("a", Attr.mk 2 false)] with
  | Except.ok s => s
  | Except.error _ => ⟨[], [], []⟩

theorem comparison_valueerror_treated_as_not_equal_witness :
    (Attr.mk 1 false, some (Attr.mk 2 false)) ∈ res3.calls ∧
    (if (Attr.mk 1 false).callableLike && (Attr.mk 2 false).callableLike
     then lookupA res3.oldAttrs "a" = some (Attr.mk 2 false)
     else lookupA res3.newAttrs "a" = some (Attr.mk 1 false)) :=
  comparison_valueerror_treated_as_not_equal cmpValueError
    [("a", Attr.mk 1 false)] [("a", Attr.mk 2 false)] "a"
    (Attr.mk 1 false) (Attr.mk 2 false) res3
    (by decide) (by decide) (by decide) (by decide) (by rfl)

/-- C4: in the composite-type patch rule, for every attribute present on the
old class whose old and new values compare unequal (and whose comparison
does not abort the patch): if both values are callable-like the new value
wins — the old class's slot ends up holding the new value — while if either
value is non-callable-like the old value wins — the new class's slot is
overwritten with the old value; in both cases the generic dispatcher is
invoked on the `(old value, new value)` pair. -/
theorem class_attribute_precedence
    (cmp : Attr → Option Attr → CmpResult)
    (old new : List (String × Attr)) (k : String) (ov nv : Attr)
    (res : UCState)
    (hnd : (old.map Prod.fst).Nodup)
    (hov : lookupA old k = some ov)
    (hnv : lookupA new k = some nv)
    (hc1 : cmp ov (some nv) ≠ CmpResult.eqTrue)
    (hc2 : cmp ov (some nv) ≠ CmpResult.raisesOther)
    (hok : update_class cmp old new = Except.ok res) :
    (ov, some nv) ∈ res.calls ∧
    (if ov.callableLike && nv.callableLike
     then lookupA res.oldAttrs k = some nv
     else lookupA res.newAttrs k = some ov) :=
  update_class_neq_spec cmp old new k ov nv res hnd hov hnv hc1 hc2 hok

/-- A comparison that reports "not equal" on every pair. -/
def cmpNeq : Attr → Option Attr → CmpResult := fun _ _ => CmpResult.neq

/-- Result of `update_class` on the concrete C4 witness input: a class with
one callable-like attribute `f` and one data attribute `d`, both changed. -/
def res4 : UCState :=
  match update_class cmpNeq
      [("f", Attr.mk 1 true), ("d", Attr.mk 3 false)]
      [("f", Attr.mk 2 true), ("d", Attr.mk 4 false)] with
  | Except.ok s => s
  | Except.error _ => ⟨[], [], []⟩

theorem class_attribute_precedence_witness :
    (Attr.mk 1 true, some (Attr.mk 2 true)) ∈ res4.calls ∧
    (if (Attr.mk 1 true).callableLike && (Attr.mk 2 true).callableLike
     then lookupA res4.oldAttrs "f" = some (Attr.mk 2 true)
     else lookupA res4.newAttrs "f" = some (Attr.mk 1 true)) :=
  class_attribute_precedence cmpNeq
    [("f", Attr.mk 1 true), ("d", Attr.mk 3 false)]
    [("f", Attr.mk 2 true), ("d", Attr.mk 4 false)] "f"
    (Attr.mk 1 true) (Attr.mk 2 true) res4
    (by decide) (by decide) (by decide) (by decide) (by decide) (by rfl)

/-!
## The generic patch dispatcher (`update_generic` / `UPDATE_RULES`)

`update_generic(a, b)` returns immediately when `a is b`; otherwise it walks
`UPDATE_RULES`, a literal list of `(type_check, update)` pairs whose checks
are `isinstance2(a, b, T)` for `T` in `type`, `FunctionType`, `MethodType`,
`property`, `functools.partial`, `functools.partialmethod` (in that source
order), invoking the update of the first pair whose check passes and then
returning.

In the model an object (`GObj`) is its Python identity (`oid`) plus its
`isinstance` behavior against the six checked types (`isinst`), which is
arbitrary per object (Python subclassing can make an object an instance of
several of them).  The source's `update_generic` returns `None`; what the
model's return value `Option RuleKind` exposes is the observable effect —
which kind-specific update rule, if any, was invoked ("patched = true" in
the spec's words exactly when the result is `some`). -/

/-- The six entity kinds checked by `UPDATE_RULES`, in source order:
`type`, `FunctionType`, `MethodType`, `property`, `functools.partial`,
`functools.partialmethod`. -/
inductive RuleKind
  | cls | func | method | prop | part | partmeth
deriving DecidableEq, Repr

/-- An object as seen by the dispatcher: identity plus `isinstance`
behavior against each checked type. -/
structure GObj where
  oid : Nat
  isinst : RuleKind → Bool

/-- Model of `isinstance2(a, b, typ)`. -/
def isinstance2 (a b : GObj) (t : RuleKind) : Bool :=
  a.isinst t && b.isinst t

/-- Model of `UPDATE_RULES`: the literal ordered list of `(type_check, update)`
pairs; the second component names the kind-specific update rule invoked. -/
def UPDATE_RULES : List ((GObj → GObj → Bool) × RuleKind) :=
  [ (fun a b => isinstance2 a b RuleKind.cls, RuleKind.cls),
    (fun a b => isinstance2 a b RuleKind.func, RuleKind.func),
    (fun a b => isinstance2 a b RuleKind.method, RuleKind.method),
    (fun a b => isinstance2 a b RuleKind.prop, RuleKind.prop),
    (fun a b => isinstance2 a b RuleKind.part, RuleKind.part),
    (fun a b => isinstance2 a b RuleKind.partmeth, RuleKind.partmeth) ]

/-- The `for type_check, update in UPDATE_RULES` loop: invoke the first
matching rule and return. -/
def dispatchLoop (a b : GObj) :
    List ((GObj → GObj → Bool) × RuleKind) → Option RuleKind
  | [] => none
  | (type_check, upd) :: rest =>
    if type_check a b then some upd else dispatchLoop a b rest

/-- Model of `update_generic(a, b)`: no-op when `a is b`, else first-match dispatch
over `UPDATE_RULES`.  The result records which kind-specific rule was
invoked (`none`: no rule fired, "patched = false"). -/
def update_generic (a b : GObj) : Option RuleKind :=
  if a.oid = b.oid then none else dispatchLoop a b UPDATE_RULES

/-- C9: the generic dispatcher is a no-op on an identical pair; otherwise it
tests the fixed, ordered kind list (composite type, plain callable, bound
callable, computed-property accessor, partial application, partial method)
and invokes the rule of the first kind matching both objects ("patched =
true"); when no kind matches both objects, no rule is invoked ("patched =
false"). -/
theorem update_generic_dispatch (a b : GObj) :
    (a.oid = b.oid → update_generic a b = none) ∧
    (a.oid ≠ b.oid →
      update_generic a b =
        ([RuleKind.cls, RuleKind.func, RuleKind.method, RuleKind.prop,
          RuleKind.part, RuleKind.partmeth].find?
            (fun t => isinstance2 a b t))) ∧
    ((∀ t, isinstance2 a b t = false) → update_generic a b = none) := by
  refine ⟨fun h => ?_, fun h => ?_, fun h => ?_⟩
  · simp [update_generic, h]
  · simp only [update_generic, if_neg h]
    simp only [dispatchLoop, UPDATE_RULES, List.find?]
    rcases h1 : isinstance2 a b RuleKind.cls <;>
      rcases h2 : isinstance2 a b RuleKind.func <;>
        rcases h3 : isinstance2 a b RuleKind.method <;>
          rcases h4 : isinstance2 a b RuleKind.prop <;>
            rcases h5 : isinstance2 a b RuleKind.part <;>
              rcases h6 : isinstance2 a b RuleKind.partmeth <;>
                simp [h1, h2, h3, h4, h5, h6]
  · by_cases hid : a.oid = b.oid
    · simp [update_generic, hid]
    · simp [update_generic, hid, dispatchLoop, UPDATE_RULES, h]

/-- A concrete dispatcher input: a pair of distinct bound-method objects
(instances of `MethodType` only). -/
def methA : GObj := ⟨10, fun t => t matches RuleKind.method⟩

/-- The new bound-method object paired with `methA`. -/
def methB : GObj := ⟨11, fun t => t matches RuleKind.method⟩

theorem update_generic_dispatch_witness :
    update_generic methA methB =
      ([RuleKind.cls, RuleKind.func, RuleKind.method, RuleKind.prop,
        RuleKind.part, RuleKind.partmeth].find?
          (fun t => isinstance2 methA methB t)) :=
  (update_generic_dispatch methA methB).2.1 (by decide)

/-!
## The reload orchestrator (`ModuleReloader.check` / `superduperreload`)

A module namespace value (`MVal`) is its Python identity, its `__module__`
attribute if any, and whether `weakref.ref` accepts it.  A module
(`PyModule`) is its `__name__`, its resolved source path (the
`__file__`/extension/`source_from_cache` resolution of
`filename_and_mtime` is collapsed into the optional `file` field: `none`
models a module with no resolvable `.py` source), and its `__dict__`.

The environment supplies `os.stat(...).st_mtime` per path (`none` models
`OSError`) and the behavior of `importlib.reload` per module name: either
the re-execution raises, or it produces the bindings defined by the new
source.  Per the Python language documentation, `importlib.reload`
re-executes the module's code in the module's *existing* namespace
dictionary without clearing it, so names the new source does not define keep
their old values: a successful reload turns namespace `ns` into
`updA ns bindings`.

`ModuleReloader` state mirrors the Python attributes of the same names.
The `_report` callback and the stderr diagnostic are modelled by recording
the attempted/failed module name (the actual message strings add no
information).  `update_generic` invocations in the patch loop are recorded
as `(id(old), id(new))` pairs rather than interpreted; `self._updated_obj_ids`
is cleared on entry to `superduperreload`, so the model starts the round
with an empty set.
-/

/-- A value in a module namespace. -/
structure MVal where
  oid : Nat
  moduleAttr : Option String
  weakrefable : Bool
deriving DecidableEq, Repr

/-- A loaded module: `__name__`, resolved source path, `__dict__`. -/
structure PyModule where
  name : String
  file : Option String
  ns : List (String × MVal)
deriving DecidableEq, Repr

/-- Behavior of `importlib.reload` on a module: the re-execution raises, or
it runs to completion defining these top-level bindings. -/
inductive ReloadOutcome
  | raises
  | ok (bindings : List (String × MVal))
deriving DecidableEq, Repr

/-- The world outside the reloader: file mtimes and reload behavior. -/
structure Env where
  stat : String → Option Nat
  reloadResult : String → ReloadOutcome

/-- The mutable attributes of a `ModuleReloader`. -/
structure ReloaderState where
  enabled : Bool
  check_all : Bool
  /-- Python `self.failed`: source path ↦ mtime at the failed reload. -/
  failed : List (String × Nat)
  /-- Python `self.modules`: modules explicitly marked reloadable. -/
  modules : List String
  /-- Python `self.skip_modules`. -/
  skip_modules : List String
  /-- Python `self.old_objects`: `(module name, identifier)` ↦ weakrefs
  (a dead weakref is `none`). -/
  old_objects : List ((String × String) × List (Option MVal))
  /-- Python `self._updated_obj_ids`. -/
  updated_obj_ids : List Nat
  /-- Python `self.modules_mtimes`. -/
  modules_mtimes : List (String × Nat)
  /-- Python `sys.modules`. -/
  sys_modules : List (String × PyModule)
  reloaded_modules : List String
  failed_modules : List String
  /-- names passed to the injected `self._report` callback. -/
  report_calls : List String
  /-- names written with a traceback to `sys.stderr`. -/
  stderr_msgs : List String
deriving DecidableEq, Repr

/-- Helper for `modname.split(".")` (structural model of Python `str.split`). -/
def splitDotsAux : List Char → List Char → List String
  | [], acc => [String.mk acc.reverse]
  | c :: rest, acc =>
    if c = '.' then String.mk acc.reverse :: splitDotsAux rest []
    else splitDotsAux rest (c :: acc)

/-- Model of `modname.split(".")`. -/
def splitDots (s : String) : List String := splitDotsAux s.data []

/-- Model of `".".join(parts)`. -/
def joinDots : List String → String
  | [] => ""
  | [s] => s
  | s :: rest => s ++ "." ++ joinDots rest

/-- The proper package-path parts checked against the skip set:
`".".join(package_components[:idx]) for idx in range(1, len(package_components))`.
Note the range stops *before* `len(package_components)`, so the module's own
full dotted name is never among the checked parts. -/
def parentPackagePaths (modname : String) : List String :=
  (List.range' 1 ((splitDots modname).length - 1)).map
    (fun i => joinDots ((splitDots modname).take i))

/-- The skip test at the top of the `check` loop body. -/
def skipTest (skips : List String) (modname : String) : Bool :=
  (parentPackagePaths modname).any (fun p => skips.contains p)

/-- Model of `filename_and_mtime`: resolved source path and its current mtime, or
`none` when the module has no resolvable source or `os.stat` fails. -/
def filename_and_mtime (env : Env) (m : PyModule) : Option (String × Nat) :=
  match m.file with
  | none => none
  | some f =>
    match env.stat f with
    | none => none
    | some t => some (f, t)

/-- Model of `append_obj`: record a weak reference to `obj` under
`(module name, name)` when `obj.__module__` equals the module's name.
`weakref.ref` raising `TypeError` (non-weakrefable values) is caught, but
only after `setdefault` has ensured the entry exists. -/
def append_obj (oldObjs : List ((String × String) × List (Option MVal)))
    (modName name : String) (v : MVal) :
    List ((String × String) × List (Option MVal)) :=
  if v.moduleAttr = some modName then
    if v.weakrefable then
      setA oldObjs (modName, name)
        (((lookupA oldObjs (modName, name)).getD []) ++ [some v])
    else
      setA oldObjs (modName, name) ((lookupA oldObjs (modName, name)).getD [])
  else oldObjs

/-- The inner loop over one key's tracked weakrefs: drop dead refs, keep
live ones, and invoke `update_generic(old_obj, new_obj)` (recorded as an
oid pair) unless the old object is the new object or was already updated
this round.  Returns the surviving refs, the updated-id set and the call
log. -/
def patchRefs (new_obj : MVal) :
    List (Option MVal) → List Nat → List (Nat × Nat) →
    List (Option MVal) × List Nat × List (Nat × Nat)
  | [], updated, calls => ([], updated, calls)
  | none :: rest, updated, calls => patchRefs new_obj rest updated calls
  | some old :: rest, updated, calls =>
    if old.oid = new_obj.oid then
      let (nr, u, c) := patchRefs new_obj rest updated calls
      (some old :: nr, u, c)
    else if old.oid ∈ updated then
      let (nr, u, c) := patchRefs new_obj rest updated calls
      (some old :: nr, u, c)
    else
      let (nr, u, c) := patchRefs new_obj rest (updated ++ [old.oid])
        (calls ++ [(old.oid, new_obj.oid)])
      (some old :: nr, u, c)

/-- Accumulator of the patch loop: the tracking table, the updated-id set
and the `update_generic` call log. -/
structure PatchAcc where
  old_objects : List ((String × String) × List (Option MVal))
  updated : List Nat
  calls : List (Nat × Nat)
deriving DecidableEq, Repr

/-- The patch loop of `superduperreload`: for every `(name, new_obj)` in the
reloaded namespace with a tracked entry, patch the surviving old objects,
then store back the live refs (or pop the entry if none survive). -/
def patchLoop (modName : String) :
    List (String × MVal) → PatchAcc → PatchAcc
  | [], acc => acc
  | (name, new_obj) :: rest, acc =>
    match lookupA acc.old_objects (modName, name) with
    | none => patchLoop modName rest acc
    | some refs =>
      let (new_refs, u, c) := patchRefs new_obj refs acc.updated acc.calls
      patchLoop modName rest
        { old_objects :=
            if new_refs.isEmpty then delA acc.old_objects (modName, name)
            else setA acc.old_objects (modName, name) new_refs,
          updated := u, calls := c }

/-- Result of one `superduperreload` call. -/
structure SdrOut where
  module : PyModule
  old_objects : List ((String × String) × List (Option MVal))
  updated : List Nat
  calls : List (Nat × Nat)
  /-- Holds `false` when the re-execution raised (the exception propagates to the
  caller, which for `check` means its bare `except` handler). -/
  success : Bool
deriving DecidableEq, Repr

/-- Model of `superduperreload(module)`: clear the updated-id set, collect old
objects, snapshot the namespace, re-execute; on failure restore the
namespace to the snapshot exactly (`clear()` then `update(old_dict)`) and
re-raise; on success patch tracked survivors against the new namespace.
`updated_prior` is the `self._updated_obj_ids` left over from an earlier
round; the first thing the source does is `self._updated_obj_ids.clear()`,
so it is discarded. -/
def superduperreload (env : Env)
    (oldObjs : List ((String × String) × List (Option MVal)))
    (_updated_prior : List Nat) (m : PyModule) : SdrOut :=
  -- collect old objects in the module
  let objs1 := m.ns.foldl (fun acc p => append_obj acc m.name p.1 p.2) oldObjs
  -- first save a reference to previous stuff
  let old_dict := m.ns
  match env.reloadResult m.name with
  | ReloadOutcome.raises =>
    -- restore module dictionary on failed reload, then re-raise
    { module := { m with ns := old_dict }, old_objects := objs1,
      updated := [], calls := [], success := false }
  | ReloadOutcome.ok bindings =>
    -- importlib.reload: re-execute into the existing, uncleared namespace
    let ns1 := updA m.ns bindings
    let res := patchLoop m.name ns1 ⟨objs1, [], []⟩
    { module := { m with ns := ns1 }, old_objects := res.old_objects,
      updated := res.updated, calls := res.calls, success := true }

/-- The tail of the loop body once a module is due: report, try the reload,
and record the outcome.  `self._report(f"Reloading '...'.")` fires *before*
the `try` block; on success the failure record is popped and the module
appended to the reloaded list; on an exception (caught by the bare
`except`) a traceback goes to stderr, the failure is recorded at the
current mtime, and the module is appended to the failed list. -/
def attemptReload (env : Env) (st : ReloaderState)
    (modname py_filename : String) (pymtime : Nat) (m : PyModule) :
    ReloaderState :=
  let st2 := { st with report_calls := st.report_calls ++ [modname] }
  let out := superduperreload env st2.old_objects st2.updated_obj_ids m
  if out.success then
    { st2 with
      sys_modules := setA st2.sys_modules modname out.module,
      old_objects := out.old_objects,
      updated_obj_ids := out.updated,
      failed := delA st2.failed py_filename,
      reloaded_modules := st2.reloaded_modules ++ [modname] }
  else
    { st2 with
      sys_modules := setA st2.sys_modules modname out.module,
      old_objects := out.old_objects,
      updated_obj_ids := out.updated,
      failed := setA st2.failed py_filename pymtime,
      failed_modules := st2.failed_modules ++ [modname],
      stderr_msgs := st2.stderr_msgs ++ [modname] }

/-- The body of the `for modname in modules` loop of `check`. -/
def checkStep (env : Env) (do_reload : Bool) (st : ReloaderState)
    (modname : String) : ReloaderState :=
  if skipTest st.skip_modules modname then st
  else
    match lookupA st.sys_modules modname with
    | none => st  -- `m is None`: `filename_and_mtime` returns `(None, None)`
    | some m =>
      match filename_and_mtime env m with
      | none => st
      | some (py_filename, pymtime) =>
        match lookupA st.modules_mtimes modname with
        | none =>
          -- first sight: record a baseline timestamp and continue
          { st with modules_mtimes := setA st.modules_mtimes modname pymtime }
        | some cached =>
          if pymtime ≤ cached then st
          else if lookupA st.failed py_filename = some pymtime then st
          else if do_reload = false then
            { st with modules_mtimes := setA st.modules_mtimes modname pymtime }
          else
            attemptReload env
              { st with modules_mtimes := setA st.modules_mtimes modname pymtime }
              modname py_filename pymtime m

/-- Model of `ModuleReloader.check(check_all, do_reload)`. -/
def check (env : Env) (st : ReloaderState) (check_all do_reload : Bool) :
    ReloaderState :=
  if !st.enabled && !check_all then st
  else
    (if check_all || st.check_all then st.sys_modules.map Prod.fst
     else st.modules).foldl (checkStep env do_reload)
      { st with reloaded_modules := [], failed_modules := [] }

/-- A world with one loaded module `m` (source `m.py`, current mtime 2,
cached mtime 1, so the module is due) whose re-execution succeeds defining
no bindings. -/
def env2 : Env := ⟨fun _ => some 2, fun _ => ReloadOutcome.ok []⟩

/-- Reloader state with module `m` due for reload and `m` itself in the
skip set. -/
def st2 : ReloaderState :=
  { enabled := true, check_all := true, failed := [], modules := [],
    skip_modules := ["m"], old_objects := [], updated_obj_ids := [],
    modules_mtimes := [("m", 1)],
    sys_modules := [("m", ⟨"m", some "m.py", [("x", ⟨1, none, false⟩)]⟩)],
    reloaded_modules := [], failed_modules := [], report_calls := [],
    stderr_msgs := [] }

/-- C2: the skip test checks
`".".join(package_components[:idx]) for idx in range(1, len(package_components))`,
whose range stops before the full component list, so a module's own dotted
name is never compared against the skip set: a top-level module whose exact
name is in the skip set (here `m`, like the default entries `numpy`, `os`,
`sys`, `__main__`) is still reloaded, contradicting
`mark_module_skipped`'s documented behavior ("Skip reloading the named
module in the future"). -/
theorem skip_set_exact_name_not_honored :
    "m" ∈ st2.skip_modules ∧ skipTest st2.skip_modules "m" = false ∧
    (check env2 st2 true true).reloaded_modules = ["m"] := by
  refine ⟨by decide, by rfl, by rfl⟩

/-- The deleted top-level binding `z = 123` of the C5 scenario. -/
def zVal : MVal := ⟨100, none, false⟩

/-- A world where re-executing `m`'s edited source succeeds and defines only
`x` — in particular it no longer defines `z`. -/
def env5 : Env := ⟨fun _ => some 2, fun _ => ReloadOutcome.ok [("x", ⟨7, none, false⟩)]⟩

/-- Reloader state with module `m` due for reload whose namespace holds the
top-level data binding `z`. -/
def st5 : ReloaderState :=
  { enabled := true, check_all := true, failed := [], modules := [],
    skip_modules := [], old_objects := [], updated_obj_ids := [],
    modules_mtimes := [("m", 1)],
    sys_modules := [("m", ⟨"m", some "m.py", [("z", zVal)]⟩)],
    reloaded_modules := [], failed_modules := [], report_calls := [],
    stderr_msgs := [] }

/-- C5: a top-level data binding removed from the edited source survives a
successful reload.  `superduperreload` never clears the namespace before
reloading (despite its own docstring "clears the module's namespace before
reloading"), and `importlib.reload` re-executes the new source in the
existing namespace dict, where, per the Python language documentation,
"if the new version of a module does not define a name that was defined by
the old version, the old definition remains": after the reload `z` is still
bound in `m`'s namespace, where the spec requires it to be absent. -/
theorem deleted_binding_survives_reload :
    "m" ∈ (check env5 st5 true true).reloaded_modules ∧
    (match lookupA (check env5 st5 true true).sys_modules "m" with
     | some m => lookupA m.ns "z"
     | none => none) = some zVal := by
  refine ⟨by decide, by rfl⟩

/-- A world where re-executing `m`'s source raises (e.g. a syntax error). -/
def env8 : Env := ⟨fun _ => some 2, fun _ => ReloadOutcome.raises⟩

/-- C8, counterexample: the injected report callback is invoked for a module
whose reload fails.  The source calls `self._report(f"Reloading '...'.")`
*before* entering the `try` block, so on a module whose re-execution raises
the callback has already fired: here the failed module `m` is both reported
through the callback and recorded in the failed list, refuting "is not
invoked for modules whose reload fails". -/
theorem report_invoked_on_failed_reload :
    (check env8 st5 true true).report_calls = ["m"] ∧
    (check env8 st5 true true).failed_modules = ["m"] := by
  refine ⟨by rfl, by rfl⟩

/-- Invariant of one patch round: the call log's old-object ids are pairwise
distinct and every one of them is recorded in the updated-id set. -/
def RoundInv (updated : List Nat) (calls : List (Nat × Nat)) : Prop :=
  (calls.map Prod.fst).Nodup ∧ ∀ x ∈ calls.map Prod.fst, x ∈ updated

theorem patchRefs_inv (new_obj : MVal) (refs : List (Option MVal))
    (updated : List Nat) (calls : List (Nat × Nat))
    (h : RoundInv updated calls) :
    RoundInv (patchRefs new_obj refs updated calls).2.1
      (patchRefs new_obj refs updated calls).2.2 := by
  induction refs generalizing updated calls with
  | nil => exact h
  | cons r rest ih =>
    rcases r with _ | old
    · exact ih updated calls h
    · show RoundInv (patchRefs new_obj (some old :: rest) updated calls).2.1
        (patchRefs new_obj (some old :: rest) updated calls).2.2
      by_cases h1 : old.oid = new_obj.oid
      · simp only [patchRefs, if_pos h1]
        exact ih updated calls h
      · by_cases h2 : old.oid ∈ updated
        · simp only [patchRefs, if_neg h1, if_pos h2]
          exact ih updated calls h
        · simp only [patchRefs, if_neg h1, if_neg h2]
          refine ih _ _ ⟨?_, ?_⟩
          · simp only [List.map_append, List.map_cons, List.map_nil]
            rw [List.nodup_append]
            refine ⟨h.1, List.nodup_singleton _, ?_⟩
            intro x hx hx1
            simp only [List.mem_singleton] at hx1
            subst hx1
            exact h2 (h.2 _ hx)
          · intro x hx
            simp only [List.map_append, List.map_cons, List.map_nil,
              List.mem_append, List.mem_singleton] at hx
            rcases hx with hx | hx
            · exact List.mem_append_left _ (h.2 x hx)
            · subst hx
              exact List.mem_append_right _ (List.mem_singleton_self _)

theorem patchLoop_inv (modName : String) (items : List (String × MVal))
    (acc : PatchAcc) (h : RoundInv acc.updated acc.calls) :
    RoundInv (patchLoop modName items acc).updated
      (patchLoop modName items acc).calls := by
  induction items generalizing acc with
  | nil => exact h
  | cons p rest ih =>
    obtain ⟨name, new_obj⟩ := p
    show RoundInv (patchLoop modName ((name, new_obj) :: rest) acc).updated
      (patchLoop modName ((name, new_obj) :: rest) acc).calls
    rcases hl : lookupA acc.old_objects (modName, name) with _ | refs
    · simp only [patchLoop, hl]
      exact ih acc h
    · simp only [patchLoop, hl]
      exact ih _ (patchRefs_inv new_obj refs acc.updated acc.calls h)

/-- C10: within a single `superduperreload` of one module, every surviving
tracked old object is passed to the generic patcher at most once — the
recorded `update_generic` invocations have pairwise distinct old-object
ids — even when the same object is tracked under several
`(module, name)` keys, because the updated-id set is consulted before each
patch; and since `self._updated_obj_ids.clear()` runs at entry, the round's
behavior is independent of the updated-id set left over from earlier
rounds. -/
theorem patch_at_most_once_per_object (env : Env)
    (oldObjs : List ((String × String) × List (Option MVal)))
    (updated_prior : List Nat) (m : PyModule) :
    ((superduperreload env oldObjs updated_prior m).calls.map Prod.fst).Nodup ∧
    superduperreload env oldObjs updated_prior m
      = superduperreload env oldObjs [] m := by
  refine ⟨?_, rfl⟩
  unfold superduperreload
  rcases hr : env.reloadResult m.name with _ | bindings
  · simp only [hr]
    exact List.nodup_nil
  · simp only [hr]
    exact (patchLoop_inv m.name (updA m.ns bindings)
      ⟨m.ns.foldl (fun acc p => append_obj acc m.name p.1 p.2) oldObjs, [], []⟩
      ⟨List.nodup_nil, by simp⟩).1

/-!
### Frame lemmas for the `check` loop

The theorems about `check` quantify over whole passes, so we need: what one
loop iteration at module `a` can and cannot change, how a due iteration
evaluates, and fold combinators to carry invariants across a pass.
-/

/-- A reloaded module object keeps its `__name__` and resolved source path
(only its namespace is touched). -/
theorem superduperreload_module_id (env : Env)
    (o : List ((String × String) × List (Option MVal))) (u : List Nat)
    (m : PyModule) :
    (superduperreload env o u m).module.file = m.file ∧
    (superduperreload env o u m).module.name = m.name := by
  rcases h : env.reloadResult m.name with _ | bs <;>
    simp [superduperreload, h]

/-- When the re-execution raises, the module comes back with its namespace
restored to the pre-reload snapshot — i.e. the module object is unchanged. -/
theorem superduperreload_raises (env : Env)
    (o : List ((String × String) × List (Option MVal))) (u : List Nat)
    (m : PyModule) (h : env.reloadResult m.name = ReloadOutcome.raises) :
    superduperreload env o u m =
      { module := m,
        old_objects := m.ns.foldl (fun acc p => append_obj acc m.name p.1 p.2) o,
        updated := [], calls := [], success := false } := by
  simp only [superduperreload, h]

/-- Lemma: `attemptReload` written as a single conditional on the reload outcome. -/
theorem attemptReload_eq (env : Env) (st : ReloaderState)
    (modname py_filename : String) (pymtime : Nat) (m : PyModule) :
    attemptReload env st modname py_filename pymtime m =
      if (superduperreload env st.old_objects st.updated_obj_ids m).success then
        { st with
          report_calls := st.report_calls ++ [modname],
          sys_modules := setA st.sys_modules modname
            (superduperreload env st.old_objects st.updated_obj_ids m).module,
          old_objects :=
            (superduperreload env st.old_objects st.updated_obj_ids m).old_objects,
          updated_obj_ids :=
            (superduperreload env st.old_objects st.updated_obj_ids m).updated,
          failed := delA st.failed py_filename,
          reloaded_modules := st.reloaded_modules ++ [modname] }
      else
        { st with
          report_calls := st.report_calls ++ [modname],
          sys_modules := setA st.sys_modules modname
            (superduperreload env st.old_objects st.updated_obj_ids m).module,
          old_objects :=
            (superduperreload env st.old_objects st.updated_obj_ids m).old_objects,
          updated_obj_ids :=
            (superduperreload env st.old_objects st.updated_obj_ids m).updated,
          failed := setA st.failed py_filename pymtime,
          failed_modules := st.failed_modules ++ [modname],
          stderr_msgs := st.stderr_msgs ++ [modname] } := rfl

/-- Each loop iteration either attempts nothing, or attempts its own module
and appends it to exactly one of the reloaded/failed lists (reporting it in
either case, and writing to stderr exactly on failure). -/
theorem checkStep_lists (env : Env) (d : Bool) (b : ReloaderState)
    (a : String) :
    ((checkStep env d b a).report_calls = b.report_calls ∧
     (checkStep env d b a).reloaded_modules = b.reloaded_modules ∧
     (checkStep env d b a).failed_modules = b.failed_modules ∧
     (checkStep env d b a).stderr_msgs = b.stderr_msgs) ∨
    ((checkStep env d b a).report_calls = b.report_calls ++ [a] ∧
     (checkStep env d b a).reloaded_modules = b.reloaded_modules ++ [a] ∧
     (checkStep env d b a).failed_modules = b.failed_modules ∧
     (checkStep env d b a).stderr_msgs = b.stderr_msgs) ∨
    ((checkStep env d b a).report_calls = b.report_calls ++ [a] ∧
     (checkStep env d b a).reloaded_modules = b.reloaded_modules ∧
     (checkStep env d b a).failed_modules = b.failed_modules ++ [a] ∧
     (checkStep env d b a).stderr_msgs = b.stderr_msgs ++ [a]) := by
  unfold checkStep
  split
  · exact Or.inl ⟨rfl, rfl, rfl, rfl⟩
  · split
    · exact Or.inl ⟨rfl, rfl, rfl, rfl⟩
    · split
      · exact Or.inl ⟨rfl, rfl, rfl, rfl⟩
      · split
        · exact Or.inl ⟨rfl, rfl, rfl, rfl⟩
        · split
          · exact Or.inl ⟨rfl, rfl, rfl, rfl⟩
          · split
            · exact Or.inl ⟨rfl, rfl, rfl, rfl⟩
            · split
              · exact Or.inl ⟨rfl, rfl, rfl, rfl⟩
              · rw [attemptReload_eq]
                split
                · exact Or.inr (Or.inl ⟨rfl, rfl, rfl, rfl⟩)
                · exact Or.inr (Or.inr ⟨rfl, rfl, rfl, rfl⟩)

/-- A loop iteration at `a` does not change the configuration fields, the
set of loaded module names, or the bookkeeping of any other module `k`. -/
theorem checkStep_frame (env : Env) (d : Bool) (b : ReloaderState)
    (a k : String) (hk : k ≠ a) :
    (checkStep env d b a).skip_modules = b.skip_modules ∧
    (checkStep env d b a).enabled = b.enabled ∧
    (checkStep env d b a).check_all = b.check_all ∧
    (checkStep env d b a).sys_modules.map Prod.fst
      = b.sys_modules.map Prod.fst ∧
    lookupA (checkStep env d b a).sys_modules k = lookupA b.sys_modules k ∧
    lookupA (checkStep env d b a).modules_mtimes k
      = lookupA b.modules_mtimes k := by
  unfold checkStep
  split
  · exact ⟨rfl, rfl, rfl, rfl, rfl, rfl⟩
  · split
    · exact ⟨rfl, rfl, rfl, rfl, rfl, rfl⟩
    · rename_i m hm
      split
      · exact ⟨rfl, rfl, rfl, rfl, rfl, rfl⟩
      · split
        · exact ⟨rfl, rfl, rfl, rfl, rfl, lookupA_setA_ne _ _ _ _ hk⟩
        · split
          · exact ⟨rfl, rfl, rfl, rfl, rfl, rfl⟩
          · split
            · exact ⟨rfl, rfl, rfl, rfl, rfl, rfl⟩
            · split
              · exact ⟨rfl, rfl, rfl, rfl, rfl, lookupA_setA_ne _ _ _ _ hk⟩
              · rw [attemptReload_eq]
                have hkeys : (setA b.sys_modules a
                    (superduperreload env b.old_objects b.updated_obj_ids
                      m).module).map Prod.fst = b.sys_modules.map Prod.fst :=
                  keys_setA_of_mem _ _ _ (by rw [hm]; rfl)
                split
                · exact ⟨rfl, rfl, rfl, hkeys,
                    lookupA_setA_ne _ _ _ _ hk, lookupA_setA_ne _ _ _ _ hk⟩
                · exact ⟨rfl, rfl, rfl, hkeys,
                    lookupA_setA_ne _ _ _ _ hk, lookupA_setA_ne _ _ _ _ hk⟩

/-- A loop iteration at `a` only touches the failure table at `a`'s own
resolved source path. -/
theorem checkStep_failed_frame (env : Env) (d : Bool) (b : ReloaderState)
    (a : String) (f : String)
    (hf : ∀ mm, lookupA b.sys_modules a = some mm → mm.file ≠ some f) :
    lookupA (checkStep env d b a).failed f = lookupA b.failed f := by
  unfold checkStep
  split
  · rfl
  · split
    · rfl
    · rename_i m hm
      have hmf : m.file ≠ some f := hf m hm
      split
      · rfl
      · rename_i py_f py_t hfm
        -- the resolved path is `m.file`, hence different from `f`
        have hpf : py_f ≠ f := by
          intro he
          rcases hmfile : m.file with _ | f0
          · simp only [filename_and_mtime, hmfile] at hfm
            exact Option.noConfusion hfm
          · simp only [filename_and_mtime, hmfile] at hfm
            rcases hstat : env.stat f0 with _ | t0 <;> rw [hstat] at hfm
            · exact Option.noConfusion hfm
            · have hpair : (f0, t0) = (py_f, py_t) := Option.some.inj hfm
              have hf0 : f0 = py_f := congrArg Prod.fst hpair
              exact hmf (by rw [hmfile, hf0, he])
        split
        · rfl
        · split
          · rfl
          · split
            · rfl
            · split
              · rfl
              · rw [attemptReload_eq]
                split
                · exact lookupA_delA_ne _ _ _ (Ne.symm hpf)
                · exact lookupA_setA_ne _ _ _ _ (Ne.symm hpf)

/-- A loop iteration at `a` keeps `a`'s module entry in place: the entry's
name and file never change, and a missing entry stays missing. -/
theorem checkStep_self_module (env : Env) (d : Bool) (b : ReloaderState)
    (a : String) :
    (∀ mm, lookupA b.sys_modules a = some mm →
      ∃ mm', lookupA (checkStep env d b a).sys_modules a = some mm' ∧
        mm'.file = mm.file ∧ mm'.name = mm.name) ∧
    (lookupA b.sys_modules a = none →
      lookupA (checkStep env d b a).sys_modules a = none) := by
  unfold checkStep
  split
  · exact ⟨fun mm h => ⟨mm, h, rfl, rfl⟩, fun h => h⟩
  · split
    · rename_i hnone
      exact ⟨fun mm h => absurd (hnone.symm.trans h) (by simp),
        fun _ => hnone⟩
    · rename_i m hm
      have hsome : ∀ (st' : ReloaderState), st'.sys_modules = b.sys_modules →
          (∀ mm, lookupA b.sys_modules a = some mm →
            ∃ mm', lookupA st'.sys_modules a = some mm' ∧
              mm'.file = mm.file ∧ mm'.name = mm.name) ∧
          (lookupA b.sys_modules a = none →
            lookupA st'.sys_modules a = none) := by
        intro st' hst'
        rw [hst']
        exact ⟨fun mm h => ⟨mm, h, rfl, rfl⟩, fun h => h⟩
      split
      · exact hsome _ rfl
      · split
        · exact hsome _ rfl
        · split
          · exact hsome _ rfl
          · split
            · exact hsome _ rfl
            · split
              · exact hsome _ rfl
              · rw [attemptReload_eq]
                have hout := superduperreload_module_id env b.old_objects
                  b.updated_obj_ids m
                constructor
                · intro mm hmm
                  obtain rfl : m = mm := Option.some.inj (hm.symm.trans hmm)
                  refine ⟨_, ?_, hout.1, hout.2⟩
                  split <;> exact lookupA_setA_self _ _ _
                · intro hnone
                  rw [hm] at hnone
                  exact Option.noConfusion hnone

/-- No two distinct loaded modules resolve to the same source file. -/
def FilesInj (st : ReloaderState) : Prop :=
  ∀ k1 k2 m1 m2 f,
    lookupA st.sys_modules k1 = some m1 →
    lookupA st.sys_modules k2 = some m2 →
    m1.file = some f → m2.file = some f → k1 = k2

theorem checkStep_filesInj (env : Env) (d : Bool) (b : ReloaderState)
    (a : String) (h : FilesInj b) : FilesInj (checkStep env d b a) := by
  intro k1 k2 m1 m2 f h1 h2 hf1 hf2
  have tr : ∀ k mk, lookupA (checkStep env d b a).sys_modules k = some mk →
      ∃ mk0, lookupA b.sys_modules k = some mk0 ∧ mk0.file = mk.file := by
    intro k mk hk
    by_cases hka : k = a
    · subst hka
      rcases hb : lookupA b.sys_modules k with _ | m0
      · rw [(checkStep_self_module env d b k).2 hb] at hk
        exact Option.noConfusion hk
      · obtain ⟨m', hm', hfile, _⟩ := (checkStep_self_module env d b k).1 m0 hb
        rw [hm'] at hk
        obtain rfl : m' = mk := Option.some.inj hk
        exact ⟨m0, rfl, hfile.symm⟩
    · rw [(checkStep_frame env d b a k hka).2.2.2.2.1] at hk
      exact ⟨mk, hk, rfl⟩
  obtain ⟨n1, hb1, hf1'⟩ := tr k1 m1 h1
  obtain ⟨n2, hb2, hf2'⟩ := tr k2 m2 h2
  exact h k1 k2 n1 n2 f hb1 hb2 (hf1'.trans hf1) (hf2'.trans hf2)

/-- Carrying an invariant through a fold. -/
theorem foldl_pres {α β : Type} (f : β → α → β) (P : β → Prop)
    (l : List α) (init : β) (hP : P init)
    (hstep : ∀ b a, a ∈ l → P b → P (f b a)) : P (l.foldl f init) := by
  induction l generalizing init with
  | nil => exact hP
  | cons x rest ih =>
    exact ih (f init x) (hstep init x (List.mem_cons_self _ _) hP)
      (fun b a ha hb => hstep b a (List.mem_cons_of_mem _ ha) hb)

/-- Establishing a property at a designated element of the fold and carrying
it to the end. -/
theorem foldl_establish {α β : Type} (f : β → α → β) (P Q : β → Prop)
    (l1 : List α) (x : α) (l2 : List α) (init : β)
    (hQ : Q init)
    (hQstep : ∀ b a, a ∈ l1 → Q b → Q (f b a))
    (hPx : ∀ b, Q b → P (f b x))
    (hPstep : ∀ b a, a ∈ l2 → P b → P (f b a)) :
    P ((l1 ++ x :: l2).foldl f init) := by
  rw [List.foldl_append, List.foldl_cons]
  exact foldl_pres f P l2 _ (hPx _ (foldl_pres f Q l1 init hQ hQstep)) hPstep

/-- Bundled preservation: a loop iteration at `a ≠ k`, in a state where
distinct modules have distinct files, preserves all of module `k`'s
bookkeeping (its `sys.modules` entry, its cached mtime, the failure record
of its file `f`, the skip set, and file-injectivity itself). -/
theorem checkStep_other (env : Env) (d : Bool) (b : ReloaderState)
    (a k f : String) (m : PyModule)
    (hk : k ≠ a) (hinj : FilesInj b)
    (hm : lookupA b.sys_modules k = some m) (hf : m.file = some f) :
    lookupA (checkStep env d b a).sys_modules k = some m ∧
    lookupA (checkStep env d b a).modules_mtimes k
      = lookupA b.modules_mtimes k ∧
    lookupA (checkStep env d b a).failed f = lookupA b.failed f ∧
    (checkStep env d b a).skip_modules = b.skip_modules ∧
    FilesInj (checkStep env d b a) := by
  obtain ⟨hskip, _, _, _, hsys, hmt⟩ := checkStep_frame env d b a k hk
  refine ⟨by rw [hsys]; exact hm, hmt, ?_, hskip,
    checkStep_filesInj env d b a hinj⟩
  refine checkStep_failed_frame env d b a f ?_
  intro mm hmm he
  exact hk (hinj k a m mm f hm hmm hf he)

/-- Evaluation of a due loop iteration: the module is not skipped, resolves
to source `f` with current mtime `t` strictly newer than the cached `c`, and
is not failed-at-`t`, so the step reports and attempts the reload (after
recording the new mtime). -/
theorem checkStep_due (env : Env) (b : ReloaderState) (modname f : String)
    (m : PyModule) (t c : Nat)
    (hskip : skipTest b.skip_modules modname = false)
    (hm : lookupA b.sys_modules modname = some m)
    (hfile : m.file = some f) (hstat : env.stat f = some t)
    (hcached : lookupA b.modules_mtimes modname = some c)
    (hdue : ¬ t ≤ c)
    (hfailed : ¬ lookupA b.failed f = some t) :
    checkStep env true b modname =
      attemptReload env
        { b with modules_mtimes := setA b.modules_mtimes modname t }
        modname f t m := by
  simp only [checkStep, hskip, hm, filename_and_mtime, hfile, hstat, hcached]
  rw [if_neg (show ¬ (false = true) from fun h => Bool.noConfusion h),
    if_neg hdue, if_neg hfailed,
    if_neg (show ¬ (true = false) from fun h => Bool.noConfusion h)]

/-- C8 (amended): the injected report callback is invoked exactly once per
module for which a reload is attempted during a `check` pass — equivalently,
once per occurrence of the module in the reloaded list plus once per
occurrence in the failed list (the message fires just before the attempt,
so failing modules are reported too) — and every failed module additionally
gets a diagnostic on the error channel, regardless of the callback
setting. -/
theorem report_count_matches_attempts (env : Env) (st : ReloaderState)
    (x : String) :
    (check env st true true).report_calls.count x
      = st.report_calls.count x
        + (check env st true true).reloaded_modules.count x
        + (check env st true true).failed_modules.count x ∧
    (check env st true true).stderr_msgs.count x
      = st.stderr_msgs.count x
        + (check env st true true).failed_modules.count x := by
  unfold check
  rw [if_neg (by simp), if_pos (by simp)]
  refine foldl_pres (checkStep env true)
    (fun b : ReloaderState => b.report_calls.count x
        = st.report_calls.count x + b.reloaded_modules.count x
          + b.failed_modules.count x ∧
      b.stderr_msgs.count x
        = st.stderr_msgs.count x + b.failed_modules.count x)
    _ _ ⟨by simp, by simp⟩ ?_
  rintro b a _ ⟨hb1, hb2⟩
  rcases checkStep_lists env true b a with ⟨h1, h2, h3, h4⟩ | ⟨h1, h2, h3, h4⟩
    | ⟨h1, h2, h3, h4⟩ <;>
    constructor <;> simp only [h1, h2, h3, h4, List.count_append] <;> omega

/-- The you-are-here invariant carried up to a due module's own iteration:
file-injectivity, the module entry, its stale cached mtime, its untouched
failure record, and the unchanged skip set. -/
def ModDueShape (st : ReloaderState) (modname f : String) (m : PyModule)
    (c : Nat) (b : ReloaderState) : Prop :=
  FilesInj b ∧ lookupA b.sys_modules modname = some m ∧
  lookupA b.modules_mtimes modname = some c ∧
  lookupA b.failed f = lookupA st.failed f ∧
  b.skip_modules = st.skip_modules

/-- The post-failure facts carried from a failing module's iteration to the
end of the pass. -/
def ModFailedAt (modname f : String) (m : PyModule) (t : Nat)
    (b : ReloaderState) : Prop :=
  FilesInj b ∧ lookupA b.sys_modules modname = some m ∧
  lookupA b.failed f = some t ∧ modname ∈ b.failed_modules ∧
  modname ∈ b.stderr_msgs

/-- C1: for a module whose re-execution raises, `check` rolls the module's
namespace back to the exact pre-reload snapshot (the module object comes
back unchanged), records the failure at the current filesystem mtime under
the module's source path, appends the module to the failed list, writes a
diagnostic to the error channel — and does not propagate the exception:
`check` runs to completion with exactly these effects. -/
theorem check_failed_reload_rolls_back (env : Env) (st : ReloaderState)
    (modname f : String) (m : PyModule) (t c : Nat)
    (hnd : (st.sys_modules.map Prod.fst).Nodup)
    (hinj : FilesInj st)
    (hm : lookupA st.sys_modules modname = some m)
    (hname : m.name = modname)
    (hfile : m.file = some f)
    (hstat : env.stat f = some t)
    (hskip : skipTest st.skip_modules modname = false)
    (hcached : lookupA st.modules_mtimes modname = some c)
    (hdue : c < t)
    (hfailed : lookupA st.failed f ≠ some t)
    (hraise : env.reloadResult modname = ReloadOutcome.raises) :
    lookupA (check env st true true).sys_modules modname = some m ∧
    lookupA (check env st true true).failed f = some t ∧
    modname ∈ (check env st true true).failed_modules ∧
    modname ∈ (check env st true true).stderr_msgs := by
  unfold check
  rw [if_neg (by simp), if_pos (by simp)]
  obtain ⟨l1, l2, hsplit, hk1, hk2⟩ :=
    nodup_split (mem_keys_of_lookupA hm) hnd
  rw [hsplit]
  have hQs : ∀ b a, a ∈ l1 → ModDueShape st modname f m c b →
      ModDueShape st modname f m c (checkStep env true b a) := by
    rintro b a ha ⟨binj, bm, bc, bf, bs⟩
    have hne : modname ≠ a := fun he => hk1 (he ▸ ha)
    obtain ⟨h1, h2, h3, h4, h5⟩ :=
      checkStep_other env true b a modname f m hne binj bm hfile
    exact ⟨h5, h1, h2.trans bc, h3.trans bf, h4.trans bs⟩
  have hPx : ∀ b, ModDueShape st modname f m c b →
      ModFailedAt modname f m t (checkStep env true b modname) := by
    rintro b ⟨binj, bm, bc, bf, bs⟩
    have hstep := checkStep_due env b modname f m t c
      (by rw [bs]; exact hskip) bm hfile hstat bc (not_le.mpr hdue)
      (by rw [bf]; exact hfailed)
    have hsdr : superduperreload env b.old_objects b.updated_obj_ids m =
        { module := m,
          old_objects := m.ns.foldl
            (fun acc p => append_obj acc m.name p.1 p.2) b.old_objects,
          updated := [], calls := [], success := false } :=
      superduperreload_raises env _ _ m (by rw [hname]; exact hraise)
    refine ⟨checkStep_filesInj env true b modname binj, ?_, ?_, ?_, ?_⟩ <;>
      rw [hstep, attemptReload_eq] <;>
      rw [show superduperreload env
          ({ b with modules_mtimes := setA b.modules_mtimes modname t
           } : ReloaderState).old_objects
          ({ b with modules_mtimes := setA b.modules_mtimes modname t
           } : ReloaderState).updated_obj_ids m =
        ({ module := m,
           old_objects := m.ns.foldl
             (fun acc p => append_obj acc m.name p.1 p.2) b.old_objects,
           updated := [], calls := [], success := false } : SdrOut) from hsdr] <;>
      rw [if_neg (show ¬ (false = true) from fun h => Bool.noConfusion h)]
    · exact lookupA_setA_self _ _ _
    · exact lookupA_setA_self _ _ _
    · exact List.mem_append_right _ (List.mem_singleton_self _)
    · exact List.mem_append_right _ (List.mem_singleton_self _)
  have hPs : ∀ b a, a ∈ l2 → ModFailedAt modname f m t b →
      ModFailedAt modname f m t (checkStep env true b a) := by
    rintro b a ha ⟨binj, bm, bf, bfm, bstd⟩
    have hne : modname ≠ a := fun he => hk2 (he ▸ ha)
    obtain ⟨h1, h2, h3, h4, h5⟩ :=
      checkStep_other env true b a modname f m hne binj bm hfile
    refine ⟨h5, h1, h3.trans bf, ?_, ?_⟩ <;>
      rcases checkStep_lists env true b a with ⟨g1, g2, g3, g4⟩
        | ⟨g1, g2, g3, g4⟩ | ⟨g1, g2, g3, g4⟩ <;>
      simp only [g3, g4]
    · exact bfm
    · exact bfm
    · exact List.mem_append_left _ bfm
    · exact bstd
    · exact bstd
    · exact List.mem_append_left _ bstd
  have hfold := foldl_establish (checkStep env true)
    (ModFailedAt modname f m t) (ModDueShape st modname f m c)
    l1 modname l2
    { st with reloaded_modules := [], failed_modules := [] }
    ⟨hinj, hm, hcached, rfl, rfl⟩ hQs hPx hPs
  exact ⟨hfold.2.1, hfold.2.2.1, hfold.2.2.2.1, hfold.2.2.2.2⟩

/-- Lemma: `FilesInj` holds when a single module is loaded. -/
theorem filesInj_of_singleton (st : ReloaderState) (name : String)
    (m : PyModule) (h : st.sys_modules = [(name, m)]) : FilesInj st := by
  rintro k1 k2 m1 m2 f h1 h2 _ _
  rw [h] at h1 h2
  simp only [lookupA] at h1 h2
  split at h1
  · split at h2
    · rename_i e1 e2
      exact e1.symm.trans e2
    · exact Option.noConfusion h2
  · exact Option.noConfusion h1

/-- Lemma: `FilesInj` holds for two loaded modules whose files differ. -/
theorem filesInj_of_two (st : ReloaderState) (n1 n2 : String)
    (m1 m2 : PyModule) (h : st.sys_modules = [(n1, m1), (n2, m2)])
    (hne : ∀ f, m1.file = some f → m2.file ≠ some f) : FilesInj st := by
  rintro k1 k2 mm1 mm2 f h1 h2 hf1 hf2
  rw [h] at h1 h2
  simp only [lookupA] at h1 h2
  split at h1
  · rename_i e11
    obtain rfl : m1 = mm1 := Option.some.inj h1
    split at h2
    · rename_i e21
      exact e11.symm.trans e21
    · split at h2
      · obtain rfl : m2 = mm2 := Option.some.inj h2
        exact absurd hf2 (hne f hf1)
      · exact Option.noConfusion h2
  · split at h1
    · rename_i e12
      obtain rfl : m2 = mm1 := Option.some.inj h1
      split at h2
      · obtain rfl : m1 = mm2 := Option.some.inj h2
        exact absurd hf1 (hne f hf2)
      · split at h2
        · rename_i e22
          exact e12.symm.trans e22
        · exact Option.noConfusion h2
    · exact Option.noConfusion h1

/-- World for the C1 witness: module `m` is due but its re-execution
raises. -/
def env1 : Env := ⟨fun _ => some 2, fun _ => ReloadOutcome.raises⟩

/-- The module of the C1 witness. -/
def mod1 : PyModule := ⟨"m", some "m.py", [("z", zVal)]⟩

/-- Reloader state for the C1 witness. -/
def st1 : ReloaderState :=
  { enabled := true, check_all := true, failed := [], modules := [],
    skip_modules := [], old_objects := [], updated_obj_ids := [],
    modules_mtimes := [("m", 1)], sys_modules := [("m", mod1)],
    reloaded_modules := [], failed_modules := [], report_calls := [],
    stderr_msgs := [] }

theorem check_failed_reload_rolls_back_witness :
    lookupA (check env1 st1 true true).sys_modules "m" = some mod1 ∧
    lookupA (check env1 st1 true true).failed "m.py" = some 2 ∧
    "m" ∈ (check env1 st1 true true).failed_modules ∧
    "m" ∈ (check env1 st1 true true).stderr_msgs :=
  check_failed_reload_rolls_back env1 st1 "m" "m.py" mod1 2 1
    (by decide) (filesInj_of_singleton st1 "m" mod1 rfl) rfl rfl rfl rfl rfl
    rfl (by decide) (by decide) rfl

/-- A loop iteration at a module whose file's current mtime has not advanced
past the cached one — or whose failure record matches the current mtime —
changes nothing at all. -/
theorem checkStep_not_due (env : Env) (b : ReloaderState)
    (modname f : String) (m : PyModule) (t T : Nat)
    (hm : lookupA b.sys_modules modname = some m)
    (hfile : m.file = some f) (hstat : env.stat f = some t)
    (hcached : lookupA b.modules_mtimes modname = some T)
    (hgate : t ≤ T ∨ lookupA b.failed f = some t) :
    checkStep env true b modname = b := by
  unfold checkStep
  split
  · rfl
  · split
    · rfl
    · rename_i m' hm'
      obtain rfl : m = m' := Option.some.inj (hm.symm.trans hm')
      split
      · rfl
      · rename_i pf pt hfm
        have hpair : (f, t) = (pf, pt) := by
          refine Option.some.inj ?_
          rw [← hfm]
          simp only [filename_and_mtime, hfile, hstat]
        have hpf : pf = f := (congrArg Prod.fst hpair).symm
        have hpt : pt = t := (congrArg Prod.snd hpair).symm
        split
        · rename_i hcn
          rw [hcached] at hcn
          exact Option.noConfusion hcn
        · rename_i c hc
          obtain rfl : T = c := Option.some.inj (hcached.symm.trans hc)
          split
          · rfl
          · rename_i hle
            rcases hgate with hg | hg
            · exact absurd (by rw [hpt]; exact hg) hle
            · split
              · rfl
              · rename_i hne
                exact absurd (by rw [hpf, hpt]; exact hg) hne

/-- C6: a unit recorded as failed at timestamp `T` (cached mtime and failure
record both at `T`) is not re-executed by a subsequent `check` while the
file's mtime is still at most `T` — the pass changes none of its
bookkeeping, so the same applies to every later pass — and once the mtime
advances strictly past `T`, the unit is attempted again (ending up in the
reloaded or failed list). -/
theorem failed_unit_retry_gate (env : Env) (st : ReloaderState)
    (modname f : String) (m : PyModule) (T t : Nat)
    (hnd : (st.sys_modules.map Prod.fst).Nodup)
    (hinj : FilesInj st)
    (hm : lookupA st.sys_modules modname = some m)
    (hfile : m.file = some f)
    (hstat : env.stat f = some t)
    (hcached : lookupA st.modules_mtimes modname = some T)
    (hfailedT : lookupA st.failed f = some T) :
    (t ≤ T →
      modname ∉ (check env st true true).reloaded_modules ∧
      modname ∉ (check env st true true).failed_modules ∧
      (check env st true true).report_calls.count modname
        = st.report_calls.count modname ∧
      lookupA (check env st true true).sys_modules modname = some m ∧
      lookupA (check env st true true).modules_mtimes modname = some T ∧
      lookupA (check env st true true).failed f = some T) ∧
    (T < t → skipTest st.skip_modules modname = false →
      modname ∈ (check env st true true).reloaded_modules ∨
      modname ∈ (check env st true true).failed_modules) := by
  obtain ⟨l1, l2, hsplit, hk1, hk2⟩ :=
    nodup_split (mem_keys_of_lookupA hm) hnd
  constructor
  · -- the gate holds: the whole pass leaves the unit alone
    intro hle
    unfold check
    rw [if_neg (by simp), if_pos (by simp)]
    have hfold := foldl_pres (checkStep env true)
      (fun b : ReloaderState =>
        FilesInj b ∧ lookupA b.sys_modules modname = some m ∧
        lookupA b.modules_mtimes modname = some T ∧
        lookupA b.failed f = some T ∧
        modname ∉ b.reloaded_modules ∧ modname ∉ b.failed_modules ∧
        b.report_calls.count modname = st.report_calls.count modname)
      (st.sys_modules.map Prod.fst)
      { st with reloaded_modules := [], failed_modules := [] }
      ⟨hinj, hm, hcached, hfailedT, by simp, by simp, rfl⟩ ?_
    · exact ⟨hfold.2.2.2.2.1, hfold.2.2.2.2.2.1, hfold.2.2.2.2.2.2,
        hfold.2.1, hfold.2.2.1, hfold.2.2.2.1⟩
    · rintro b a _ ⟨binj, bm, bc, bf, br, bfm, bcnt⟩
      by_cases hax : a = modname
      · subst hax
        rw [checkStep_not_due env b a f m t T bm hfile hstat bc (Or.inl hle)]
        exact ⟨binj, bm, bc, bf, br, bfm, bcnt⟩
      · have hne : modname ≠ a := fun he => hax he.symm
        obtain ⟨h1, h2, h3, h4, h5⟩ :=
          checkStep_other env true b a modname f m hne binj bm hfile
        have hcnt : List.count modname [a] = 0 :=
          List.count_eq_zero.mpr (fun hc => hne (List.mem_singleton.mp hc))
        have hl := checkStep_lists env true b a
        refine ⟨h5, h1, h2.trans bc, h3.trans bf, ?_, ?_, ?_⟩
        · rcases hl with ⟨g1, g2, g3, g4⟩ | ⟨g1, g2, g3, g4⟩
            | ⟨g1, g2, g3, g4⟩ <;> rw [g2]
          · exact br
          · intro hc
            rcases List.mem_append.mp hc with hc | hc
            · exact br hc
            · exact hne (List.mem_singleton.mp hc)
          · exact br
        · rcases hl with ⟨g1, g2, g3, g4⟩ | ⟨g1, g2, g3, g4⟩
            | ⟨g1, g2, g3, g4⟩ <;> rw [g3]
          · exact bfm
          · exact bfm
          · intro hc
            rcases List.mem_append.mp hc with hc | hc
            · exact bfm hc
            · exact hne (List.mem_singleton.mp hc)
        · rcases hl with ⟨g1, g2, g3, g4⟩ | ⟨g1, g2, g3, g4⟩
            | ⟨g1, g2, g3, g4⟩ <;> rw [g1]
          · exact bcnt
          · rw [List.count_append, hcnt]
            omega
          · rw [List.count_append, hcnt]
            omega
  · -- the mtime advanced past T: the unit is attempted again
    intro hT hskip
    unfold check
    rw [if_neg (by simp), if_pos (by simp)]
    rw [hsplit]
    refine foldl_establish (checkStep env true)
      (fun b : ReloaderState =>
        modname ∈ b.reloaded_modules ∨ modname ∈ b.failed_modules)
      (ModDueShape st modname f m T)
      l1 modname l2 _ ⟨hinj, hm, hcached, rfl, rfl⟩ ?_ ?_ ?_
    · rintro b a ha ⟨binj, bm, bc, bf, bs⟩
      have hne : modname ≠ a := fun he => hk1 (he ▸ ha)
      obtain ⟨h1, h2, h3, h4, h5⟩ :=
        checkStep_other env true b a modname f m hne binj bm hfile
      exact ⟨h5, h1, h2.trans bc, h3.trans bf, h4.trans bs⟩
    · rintro b ⟨binj, bm, bc, bf, bs⟩
      rw [checkStep_due env b modname f m t T (by rw [bs]; exact hskip)
        bm hfile hstat bc (not_le.mpr hT)
        (by rw [bf, hfailedT]
            intro hcon
            exact absurd (Option.some.inj hcon) (Nat.ne_of_lt hT)),
        attemptReload_eq]
      split
      · exact Or.inl (List.mem_append_right _ (List.mem_singleton_self _))
      · exact Or.inr (List.mem_append_right _ (List.mem_singleton_self _))
    · rintro b a ha (hb | hb) <;>
        rcases checkStep_lists env true b a with ⟨g1, g2, g3, g4⟩
          | ⟨g1, g2, g3, g4⟩ | ⟨g1, g2, g3, g4⟩ <;>
        simp only [g2, g3]
      · exact Or.inl hb
      · exact Or.inl (List.mem_append_left _ hb)
      · exact Or.inl hb
      · exact Or.inr hb
      · exact Or.inr hb
      · exact Or.inr (List.mem_append_left _ hb)

/-- World for the C6 witness: after `m` failed at mtime 2, the file still
has mtime 2. -/
def env6 : Env := ⟨fun _ => some 2, fun _ => ReloadOutcome.raises⟩

/-- Reloader state for the C6 witness: `m` recorded as failed at 2 with
cached mtime 2. -/
def st6 : ReloaderState :=
  { enabled := true, check_all := true, failed := [("m.py", 2)],
    modules := [], skip_modules := [], old_objects := [],
    updated_obj_ids := [], modules_mtimes := [("m", 2)],
    sys_modules := [("m", mod1)], reloaded_modules := [],
    failed_modules := [], report_calls := [], stderr_msgs := [] }

theorem failed_unit_retry_gate_witness :
    ((2 : Nat) ≤ 2 →
      "m" ∉ (check env6 st6 true true).reloaded_modules ∧
      "m" ∉ (check env6 st6 true true).failed_modules ∧
      (check env6 st6 true true).report_calls.count "m"
        = st6.report_calls.count "m" ∧
      lookupA (check env6 st6 true true).sys_modules "m" = some mod1 ∧
      lookupA (check env6 st6 true true).modules_mtimes "m" = some 2 ∧
      lookupA (check env6 st6 true true).failed "m.py" = some 2) ∧
    ((2 : Nat) < 2 → skipTest st6.skip_modules "m" = false →
      "m" ∈ (check env6 st6 true true).reloaded_modules ∨
      "m" ∈ (check env6 st6 true true).failed_modules) :=
  failed_unit_retry_gate env6 st6 "m" "m.py" mod1 2 2
    (by decide) (filesInj_of_singleton st6 "m" mod1 rfl) rfl rfl rfl rfl rfl

/-- The resolved mtime determines the module's file field. -/
theorem file_of_filename_and_mtime {env : Env} {m : PyModule} {f : String}
    {t : Nat} (h : filename_and_mtime env m = some (f, t)) :
    m.file = some f := by
  unfold filename_and_mtime at h
  split at h
  · exact Option.noConfusion h
  · rename_i f0 hf0
    split at h
    · exact Option.noConfusion h
    · rename_i t0 _
      have hp : (f0, t0) = (f, t) := Option.some.inj h
      have hf : f0 = f := congrArg Prod.fst hp
      rw [hf0, hf]

/-- Lemma: `filename_and_mtime` only looks at the module's file field. -/
theorem filename_and_mtime_congr (env : Env) {m1 m2 : PyModule}
    (h : m1.file = m2.file) :
    filename_and_mtime env m1 = filename_and_mtime env m2 := by
  unfold filename_and_mtime
  rw [h]

/-- A loop iteration never adds or removes `sys.modules` entries. -/
theorem checkStep_keys (env : Env) (d : Bool) (b : ReloaderState)
    (a : String) :
    (checkStep env d b a).sys_modules.map Prod.fst
      = b.sys_modules.map Prod.fst := by
  unfold checkStep
  split
  · rfl
  · split
    · rfl
    · rename_i m hm
      split
      · rfl
      · split
        · rfl
        · split
          · rfl
          · split
            · rfl
            · split
              · rfl
              · rw [attemptReload_eq]
                split <;> exact keys_setA_of_mem _ _ _ (by rw [hm]; rfl)

/-- Quiescence: for the same environment, a module's iteration will change
nothing — it is skipped, unloaded, unresolvable, up to date, or failed at
the file's current mtime. -/
def InertCond (env : Env) (st : ReloaderState) (x : String) : Prop :=
  skipTest st.skip_modules x = true ∨
  lookupA st.sys_modules x = none ∨
  (∃ m, lookupA st.sys_modules x = some m ∧
    (filename_and_mtime env m = none ∨
     (∃ f t c, filename_and_mtime env m = some (f, t) ∧
       lookupA st.modules_mtimes x = some c ∧
       (t ≤ c ∨ lookupA st.failed f = some t))))

/-- A quiescent module's iteration is the identity. -/
theorem checkStep_id_of_inert (env : Env) (b : ReloaderState) (x : String)
    (h : InertCond env b x) : checkStep env true b x = b := by
  unfold checkStep
  split
  · rfl
  · rename_i hs
    split
    · rfl
    · rename_i m' hm'
      rcases h with hskip | hnone | ⟨m, hm, hrest⟩
      · exact absurd hskip hs
      · exact absurd (hnone.symm.trans hm') (fun hc => Option.noConfusion hc)
      · obtain rfl : m = m' := Option.some.inj (hm.symm.trans hm')
        rcases hrest with hfn | ⟨f, t, c, hfm, hc, hgate⟩
        · split
          · rfl
          · rename_i hfm'
            rw [hfn] at hfm'
            exact Option.noConfusion hfm'
        · split
          · rfl
          · rename_i pf pt hfm'
            have hpair : (f, t) = (pf, pt) := Option.some.inj (hfm.symm.trans hfm')
            have hpf : pf = f := (congrArg Prod.fst hpair).symm
            have hpt : pt = t := (congrArg Prod.snd hpair).symm
            split
            · rename_i hcn
              rw [hc] at hcn
              exact Option.noConfusion hcn
            · rename_i c' hc'
              obtain rfl : c = c' := Option.some.inj (hc.symm.trans hc')
              split
              · rfl
              · rename_i hle
                rcases hgate with hg | hg
                · exact absurd (by rw [hpt]; exact hg) hle
                · split
                  · rfl
                  · rename_i hne
                    exact absurd (by rw [hpf, hpt]; exact hg) hne

/-- After its own iteration (with `do_reload` on), every module is
quiescent for the same environment. -/
theorem checkStep_establishes_inert (env : Env) (b : ReloaderState)
    (x : String) : InertCond env (checkStep env true b x) x := by
  unfold checkStep
  split
  · rename_i hs
    exact Or.inl hs
  · split
    · rename_i hnone
      exact Or.inr (Or.inl hnone)
    · rename_i m hm
      split
      · rename_i hfn
        exact Or.inr (Or.inr ⟨m, hm, Or.inl hfn⟩)
      · rename_i pf pt hfm
        split
        · -- baseline: mtimes[x] := pt
          exact Or.inr (Or.inr ⟨m, hm, Or.inr
            ⟨pf, pt, pt, hfm, lookupA_setA_self _ _ _, Or.inl (le_refl pt)⟩⟩)
        · rename_i c hc
          split
          · rename_i hle
            exact Or.inr (Or.inr ⟨m, hm, Or.inr ⟨pf, pt, c, hfm, hc, Or.inl hle⟩⟩)
          · split
            · rename_i hfe
              exact Or.inr (Or.inr ⟨m, hm, Or.inr ⟨pf, pt, c, hfm, hc, Or.inr hfe⟩⟩)
            · split
              · rename_i hd
                exact absurd hd (fun hc' => Bool.noConfusion hc')
              · rw [attemptReload_eq]
                have hfile := (superduperreload_module_id env b.old_objects
                  b.updated_obj_ids m).1
                split <;>
                  exact Or.inr (Or.inr ⟨_, lookupA_setA_self _ _ _, Or.inr
                    ⟨pf, pt, pt,
                      (filename_and_mtime_congr env hfile).trans hfm,
                      lookupA_setA_self _ _ _, Or.inl (le_refl pt)⟩⟩)

/-- Quiescence of `x` is preserved by any other module's iteration (given
file-injectivity). -/
theorem inert_preserved (env : Env) (b : ReloaderState) (x a : String)
    (hxa : x ≠ a) (hinj : FilesInj b) (h : InertCond env b x) :
    InertCond env (checkStep env true b a) x := by
  obtain ⟨hskip, _, _, _, hsys, hmt⟩ := checkStep_frame env true b a x hxa
  rcases h with h | h | ⟨m, hm, hrest⟩
  · exact Or.inl (by rw [hskip]; exact h)
  · exact Or.inr (Or.inl (by rw [hsys]; exact h))
  · refine Or.inr (Or.inr ⟨m, by rw [hsys]; exact hm, ?_⟩)
    rcases hrest with hfn | ⟨f, t, c, hfm, hc, hgate⟩
    · exact Or.inl hfn
    · refine Or.inr ⟨f, t, c, hfm, by rw [hmt]; exact hc, ?_⟩
      rcases hgate with hg | hg
      · exact Or.inl hg
      · refine Or.inr ?_
        rw [checkStep_failed_frame env true b a f ?_]
        · exact hg
        · intro mm hmm he
          exact hxa
            (hinj x a m mm f hm hmm (file_of_filename_and_mtime hfm) he)

/-- A fold over quiescent modules is the identity. -/
theorem foldl_id_of_inert (env : Env) (l : List String) (b : ReloaderState)
    (h : ∀ x ∈ l, InertCond env b x) :
    l.foldl (checkStep env true) b = b := by
  induction l with
  | nil => rfl
  | cons x rest ih =>
    rw [List.foldl_cons,
      checkStep_id_of_inert env b x (h x (List.mem_cons_self _ _))]
    exact ih (fun y hy => h y (List.mem_cons_of_mem _ hy))

/-- A full `check` pass leaves every loaded module quiescent. -/
theorem check_makes_inert (env : Env) (st : ReloaderState)
    (hnd : (st.sys_modules.map Prod.fst).Nodup) (hinj : FilesInj st)
    (x : String) (hx : x ∈ st.sys_modules.map Prod.fst) :
    InertCond env (check env st true true) x := by
  unfold check
  rw [if_neg (by simp), if_pos (by simp)]
  obtain ⟨l1, l2, hsplit, hk1, hk2⟩ := nodup_split hx hnd
  rw [hsplit]
  have hfold := foldl_establish (checkStep env true)
    (fun b : ReloaderState => InertCond env b x ∧ FilesInj b)
    (fun b : ReloaderState => FilesInj b) l1 x l2
    { st with reloaded_modules := [], failed_modules := [] } hinj
    (fun b a _ hb => checkStep_filesInj env true b a hb)
    (fun b hb => ⟨checkStep_establishes_inert env b x,
      checkStep_filesInj env true b x hb⟩)
    (fun b a ha hb => ⟨inert_preserved env b x a
        (fun he => hk2 (he ▸ ha)) hb.2 hb.1,
      checkStep_filesInj env true b a hb.2⟩)
  exact hfold.1

/-- A `check` pass never adds or removes `sys.modules` entries. -/
theorem check_keys (env : Env) (st : ReloaderState) :
    (check env st true true).sys_modules.map Prod.fst
      = st.sys_modules.map Prod.fst := by
  unfold check
  rw [if_neg (by simp), if_pos (by simp)]
  exact foldl_pres (checkStep env true)
    (fun b : ReloaderState =>
      b.sys_modules.map Prod.fst = st.sys_modules.map Prod.fst)
    _ _ rfl (fun b a _ hb => (checkStep_keys env true b a).trans hb)

/-- When every loaded module is quiescent, a `check` pass only clears the
per-pass result lists. -/
theorem check_eq_of_all_inert (env : Env) (b : ReloaderState)
    (h : ∀ x ∈ b.sys_modules.map Prod.fst, InertCond env b x) :
    check env b true true
      = { b with reloaded_modules := [], failed_modules := [] } := by
  unfold check
  rw [if_neg (by simp), if_pos (by simp)]
  exact foldl_id_of_inert env _ _ (fun x hx => h x hx)

/-- Evaluation of a first-sight iteration: the module resolves but has no
cached mtime, so the step records a baseline timestamp and does nothing
else. -/
theorem checkStep_baseline (env : Env) (b : ReloaderState)
    (modname f : String) (m : PyModule) (t : Nat)
    (hskip : skipTest b.skip_modules modname = false)
    (hm : lookupA b.sys_modules modname = some m)
    (hfile : m.file = some f) (hstat : env.stat f = some t)
    (hnone : lookupA b.modules_mtimes modname = none) :
    checkStep env true b modname =
      { b with modules_mtimes := setA b.modules_mtimes modname t } := by
  simp only [checkStep, hskip, hm, filename_and_mtime, hfile, hstat, hnone]
  rw [if_neg (show ¬ (false = true) from fun h => Bool.noConfusion h)]

/-- C7: (i) re-execution happens only on a strict mtime advance: running
`check` twice in succession against the same environment performs zero
re-executions on the second pass — the second pass is the identity apart
from clearing the per-pass result lists; (ii) a module seen for the first
time (no cached timestamp) merely has its current mtime recorded as a
baseline and is not reloaded (nor reported). -/
theorem strict_mtime_gate_and_baseline (env : Env) (st : ReloaderState)
    (hnd : (st.sys_modules.map Prod.fst).Nodup)
    (hinj : FilesInj st) :
    (check env (check env st true true) true true
      = { check env st true true with
          reloaded_modules := [], failed_modules := [] }) ∧
    (∀ modname m f t, lookupA st.sys_modules modname = some m →
      lookupA st.modules_mtimes modname = none →
      skipTest st.skip_modules modname = false →
      m.file = some f → env.stat f = some t →
      lookupA (check env st true true).modules_mtimes modname = some t ∧
      modname ∉ (check env st true true).reloaded_modules ∧
      modname ∉ (check env st true true).failed_modules ∧
      (check env st true true).report_calls.count modname
        = st.report_calls.count modname) := by
  constructor
  · refine check_eq_of_all_inert env (check env st true true) ?_
    rw [check_keys env st]
    intro x hx
    exact check_makes_inert env st hnd hinj x hx
  · intro modname m f t hm hnone hskip hfile hstat
    unfold check
    rw [if_neg (by simp), if_pos (by simp)]
    obtain ⟨l1, l2, hsplit, hk1, hk2⟩ :=
      nodup_split (mem_keys_of_lookupA hm) hnd
    rw [hsplit]
    refine foldl_establish (checkStep env true)
      (fun b : ReloaderState =>
        lookupA b.modules_mtimes modname = some t ∧
        modname ∉ b.reloaded_modules ∧ modname ∉ b.failed_modules ∧
        b.report_calls.count modname = st.report_calls.count modname)
      (fun b : ReloaderState =>
        lookupA b.sys_modules modname = some m ∧
        lookupA b.modules_mtimes modname = none ∧
        b.skip_modules = st.skip_modules ∧
        modname ∉ b.reloaded_modules ∧ modname ∉ b.failed_modules ∧
        b.report_calls.count modname = st.report_calls.count modname)
      l1 modname l2 _ ⟨hm, hnone, rfl, by simp, by simp, rfl⟩ ?_ ?_ ?_
    · rintro b a ha ⟨bm, bn, bs, br, bfm, bcnt⟩
      have hne : modname ≠ a := fun he => hk1 (he ▸ ha)
      obtain ⟨_, _, _, _, hsys, hmt⟩ := checkStep_frame env true b a modname hne
      have hcnt : List.count modname [a] = 0 :=
        List.count_eq_zero.mpr (fun hc => hne (List.mem_singleton.mp hc))
      have hl := checkStep_lists env true b a
      refine ⟨by rw [hsys]; exact bm, by rw [hmt]; exact bn,
        ((checkStep_frame env true b a modname hne).1).trans bs, ?_, ?_, ?_⟩
      · rcases hl with ⟨g1, g2, g3, g4⟩ | ⟨g1, g2, g3, g4⟩
          | ⟨g1, g2, g3, g4⟩ <;> rw [g2]
        · exact br
        · intro hc
          rcases List.mem_append.mp hc with hc | hc
          · exact br hc
          · exact hne (List.mem_singleton.mp hc)
        · exact br
      · rcases hl with ⟨g1, g2, g3, g4⟩ | ⟨g1, g2, g3, g4⟩
          | ⟨g1, g2, g3, g4⟩ <;> rw [g3]
        · exact bfm
        · exact bfm
        · intro hc
          rcases List.mem_append.mp hc with hc | hc
          · exact bfm hc
          · exact hne (List.mem_singleton.mp hc)
      · rcases hl with ⟨g1, g2, g3, g4⟩ | ⟨g1, g2, g3, g4⟩
          | ⟨g1, g2, g3, g4⟩ <;> rw [g1]
        · exact bcnt
        · rw [List.count_append, hcnt]
          omega
        · rw [List.count_append, hcnt]
          omega
    · rintro b ⟨bm, bn, bs, br, bfm, bcnt⟩
      rw [checkStep_baseline env b modname f m t (by rw [bs]; exact hskip)
        bm hfile hstat bn]
      exact ⟨lookupA_setA_self _ _ _, br, bfm, bcnt⟩
    · rintro b a ha ⟨bt, br, bfm, bcnt⟩
      have hne : modname ≠ a := fun he => hk2 (he ▸ ha)
      obtain ⟨_, _, _, _, hsys, hmt⟩ := checkStep_frame env true b a modname hne
      have hcnt : List.count modname [a] = 0 :=
        List.count_eq_zero.mpr (fun hc => hne (List.mem_singleton.mp hc))
      have hl := checkStep_lists env true b a
      refine ⟨by rw [hmt]; exact bt, ?_, ?_, ?_⟩
      · rcases hl with ⟨g1, g2, g3, g4⟩ | ⟨g1, g2, g3, g4⟩
          | ⟨g1, g2, g3, g4⟩ <;> rw [g2]
        · exact br
        · intro hc
          rcases List.mem_append.mp hc with hc | hc
          · exact br hc
          · exact hne (List.mem_singleton.mp hc)
        · exact br
      · rcases hl with ⟨g1, g2, g3, g4⟩ | ⟨g1, g2, g3, g4⟩
          | ⟨g1, g2, g3, g4⟩ <;> rw [g3]
        · exact bfm
        · exact bfm
        · intro hc
          rcases List.mem_append.mp hc with hc | hc
          · exact bfm hc
          · exact hne (List.mem_singleton.mp hc)
      · rcases hl with ⟨g1, g2, g3, g4⟩ | ⟨g1, g2, g3, g4⟩
          | ⟨g1, g2, g3, g4⟩ <;> rw [g1]
        · exact bcnt
        · rw [List.count_append, hcnt]
          omega
        · rw [List.count_append, hcnt]
          omega

/-- The due module of the C7 witness. -/
def mod7m : PyModule := ⟨"m", some "m.py", []⟩

/-- The first-sight module of the C7 witness. -/
def mod7n : PyModule := ⟨"n", some "n.py", []⟩

/-- World for the C7 witness: `m.py` has mtime 2, `n.py` has mtime 3, and
re-execution succeeds. -/
def env7 : Env :=
  ⟨fun p => if p = "m.py" then some 2 else if p = "n.py" then some 3 else none,
   fun _ => ReloadOutcome.ok []⟩

/-- Reloader state for the C7 witness: `m` is due (cached mtime 1), `n` has
never been seen. -/
def st7 : ReloaderState :=
  { enabled := true, check_all := true, failed := [], modules := [],
    skip_modules := [], old_objects := [], updated_obj_ids := [],
    modules_mtimes := [("m", 1)],
    sys_modules := [("m", mod7m), ("n", mod7n)],
    reloaded_modules := [], failed_modules := [], report_calls := [],
    stderr_msgs := [] }

theorem st7_filesInj : FilesInj st7 := by
  refine filesInj_of_two st7 "m" "n" mod7m mod7n rfl ?_
  intro f hf hcon
  have h1 : f = "m.py" := (Option.some.inj hf).symm
  rw [h1] at hcon
  exact absurd (Option.some.inj hcon) (by decide)

theorem strict_mtime_gate_and_baseline_witness :
    (check env7 (check env7 st7 true true) true true
      = { check env7 st7 true true with
          reloaded_modules := [], failed_modules := [] }) ∧
    (lookupA (check env7 st7 true true).modules_mtimes "n" = some 3 ∧
     "n" ∉ (check env7 st7 true true).reloaded_modules ∧
     "n" ∉ (check env7 st7 true true).failed_modules ∧
     (check env7 st7 true true).report_calls.count "n"
       = st7.report_calls.count "n") :=
  ⟨(strict_mtime_gate_and_baseline env7 st7 (by decide) st7_filesInj).1,
   (strict_mtime_gate_and_baseline env7 st7 (by decide) st7_filesInj).2
     "n" mod7n "n.py" 3 rfl rfl rfl rfl rfl⟩

end SDR
